import Mathlib

/-!
ECL black-oil output module.

A shallow embedding of `EclOutputBlackOilModule`
(`applications/ebos/ecloutputblackoilmodule.hh`): the three operations
`allocBuffers`, `processElement` and `commitBuffers`, over explicit state.

* `Scalar` is a template parameter of the source; here it is a type `S`
  with a zero, a division and scientific literals (for `1e5`).
* Run-time parameters and the discretization are read through the `TypeTag`.
* A buffer is a list of scalars; an indexed store `buffer[i] = v` outside the
  buffer is undefined behaviour in the source and is `none` here.
-/

namespace Ewoms

/-- Storage-location tag of a buffer, `BaseOutputModule::BufferType`. -/
inductive BufferType where
  | DofBuffer
  | VertexBuffer
  | ElementBuffer
  deriving DecidableEq, Repr

/-- A scalar buffer, `ParentType::ScalarBuffer`: one slot per global index. -/
abbrev ScalarBuffer (S : Type) := List S

/-- Modelled from the spec: `FluidSystem::numPhases` is declared outside these
sources; the spec fixes the phases of the model as oil, gas and water. -/
abbrev numPhases : Nat := 3

/-- The part of the type tag the module reads: whether `Discretization` is
`EcfvDiscretization<TypeTag>`, and the six `EclOutputWrite*` parameters. -/
structure TypeTag where
  discretizationIsEcfv : Bool
  EclOutputWriteSaturations : Bool
  EclOutputWritePressures : Bool
  EclOutputWriteGasDissolutionFactor : Bool
  EclOutputWriteGasFormationVolumeFactor : Bool
  EclOutputWriteOilFormationVolumeFactor : Bool
  EclOutputWriteOilSaturationPressure : Bool
  deriving DecidableEq, Repr

/-- The fluid system: its phase and component indices and its four evaluators
are declared outside these sources and are taken as parameters. -/
structure FluidSystem (S : Type) where
  oilPhaseIdx : Fin numPhases
  gasPhaseIdx : Fin numPhases
  waterPhaseIdx : Fin numPhases
  gasCompIdx : Nat
  gasDissolutionFactor : S → Int → S
  gasFormationVolumeFactor : S → Int → S
  saturatedOilFormationVolumeFactor : S → Int → S
  oilSaturationPressure : S → Int → S

/-- The fluid state of a degree of freedom, as far as the module queries it. -/
structure FluidState (S : Type) where
  pressure : Fin numPhases → S
  saturation : Fin numPhases → S
  massFraction : Fin numPhases → Nat → S

/-- The element context, as far as the module queries it; the second argument
of each query is the time index. -/
structure ElementContext (S : Type) where
  numPrimaryDof : Nat → Nat
  fluidState : Nat → Nat → FluidState S
  globalSpaceIndex : Nat → Nat → Int
  pvtRegionIndex : Nat → Nat → Int

/-- The data members of `EclOutputBlackOilModule`. -/
structure EclOutputBlackOilModule (S : Type) where
  saturation_ : Fin numPhases → ScalarBuffer S
  pressure_ : Fin numPhases → ScalarBuffer S
  gasDissolutionFactor_ : ScalarBuffer S
  gasFormationVolumeFactor_ : ScalarBuffer S
  saturatedOilFormationVolumeFactor_ : ScalarBuffer S
  oilSaturationPressure_ : ScalarBuffer S

/-- One call of `commitScalarBuffer_` as the writer sees it: the name, the
buffer, and the tag argument (`none` when the call site omits it). -/
structure AttachedBuffer (S : Type) where
  name : String
  buffer : ScalarBuffer S
  bufferType : Option BufferType

/-- The output writer: whether it is an `EclWriter` (the `dynamic_cast`
succeeds), and the buffers committed to it so far, oldest first. -/
structure BaseOutputWriter (S : Type) where
  isEclWriter : Bool
  attached : List (AttachedBuffer S)

section Operations

variable {S : Type}

/-- The constructor: every buffer is default-constructed, hence empty. -/
def EclOutputBlackOilModule.construct : EclOutputBlackOilModule S :=
  { saturation_ := fun _ => []
    pressure_ := fun _ => []
    gasDissolutionFactor_ := []
    gasFormationVolumeFactor_ := []
    saturatedOilFormationVolumeFactor_ := []
    oilSaturationPressure_ := [] }

def saturationsOutput_ (t : TypeTag) : Bool := t.EclOutputWriteSaturations

def pressuresOutput_ (t : TypeTag) : Bool := t.EclOutputWritePressures

def gasDissolutionFactorOutput_ (t : TypeTag) : Bool := t.EclOutputWriteGasDissolutionFactor

def gasFormationVolumeFactorOutput_ (t : TypeTag) : Bool :=
  t.EclOutputWriteGasFormationVolumeFactor

def saturatedOilFormationVolumeFactorOutput_ (t : TypeTag) : Bool :=
  t.EclOutputWriteOilFormationVolumeFactor

def oilSaturationPressureOutput_ (t : TypeTag) : Bool := t.EclOutputWriteOilSaturationPressure

/-- Modelled from the spec: `BaseOutputModule::resizeScalarBuffer_` is not in
these sources. The spec: the buffer is sized to the DOF count and its prior
contents are discarded; the fresh slots are taken to hold zero. -/
def resizeScalarBuffer_ [Zero S] (dofCount : Nat) (_buffer : ScalarBuffer S)
    (_bufferType : BufferType) : ScalarBuffer S :=
  List.replicate dofCount 0

/-- Modelled from the spec: `BaseOutputModule::commitScalarBuffer_` is not in
these sources. The spec: the commit protocol takes a name, a buffer and a
storage-location tag; the writer records the call. -/
def commitScalarBuffer_ (writer : BaseOutputWriter S) (name : String)
    (buffer : ScalarBuffer S) (bufferType : Option BufferType) : BaseOutputWriter S :=
  { writer with attached := writer.attached ++ [⟨name, buffer, bufferType⟩] }

/-- The indexed store `buffer[globalDofIdx] = value`; `none` when the index is
outside the buffer. -/
def storeAt (buffer : ScalarBuffer S) (globalDofIdx : Int) (value : S) :
    Option (ScalarBuffer S) :=
  if 0 ≤ globalDofIdx ∧ globalDofIdx < buffer.length then
    some (buffer.set globalDofIdx.toNat value)
  else none

/-- The loop `for (phaseIdx = 0; phaseIdx < numPhases; ++phaseIdx)` over a
body that cannot fail. -/
def forEachPhase {M : Type} (body : Fin numPhases → M → M) (m : M) : M :=
  (List.finRange numPhases).foldl (fun acc phaseIdx => body phaseIdx acc) m

/-- The loop `for (phaseIdx = 0; phaseIdx < numPhases; ++phaseIdx)` over a
body that stores into buffers. -/
def forEachPhaseM {M : Type} (body : Fin numPhases → M → Option M) (m : M) : Option M :=
  (List.finRange numPhases).foldlM (fun acc phaseIdx => body phaseIdx acc) m

/-- Body of `allocBuffers`, saturation branch: `resizeScalarBuffer_(saturation_[phaseIdx], bufferType)`. -/
def resizeSaturation [Zero S] (dofCount : Nat) (bufferType : BufferType)
    (phaseIdx : Fin numPhases) (m : EclOutputBlackOilModule S) : EclOutputBlackOilModule S :=
  let b := resizeScalarBuffer_ dofCount (m.saturation_ phaseIdx) bufferType
  { m with saturation_ := Function.update m.saturation_ phaseIdx b }

/-- Body of `allocBuffers`, pressure branch: `resizeScalarBuffer_(pressure_[phaseIdx], bufferType)`. -/
def resizePressure [Zero S] (dofCount : Nat) (bufferType : BufferType)
    (phaseIdx : Fin numPhases) (m : EclOutputBlackOilModule S) : EclOutputBlackOilModule S :=
  let b := resizeScalarBuffer_ dofCount (m.pressure_ phaseIdx) bufferType
  { m with pressure_ := Function.update m.pressure_ phaseIdx b }

/-- The method `allocBuffers`; `dofCount` is the size the simulator reports. -/
def allocBuffers [Zero S] (t : TypeTag) (dofCount : Nat) (m : EclOutputBlackOilModule S) :
    EclOutputBlackOilModule S :=
  if !t.discretizationIsEcfv then m
  else
    let bufferType := BufferType.ElementBuffer
    let m := if saturationsOutput_ t then
      forEachPhase (resizeSaturation dofCount bufferType) m else m
    let m := if pressuresOutput_ t then
      forEachPhase (resizePressure dofCount bufferType) m else m
    let m := if gasDissolutionFactorOutput_ t then
      { m with gasDissolutionFactor_ :=
          resizeScalarBuffer_ dofCount m.gasDissolutionFactor_ bufferType } else m
    let m := if gasFormationVolumeFactorOutput_ t then
      { m with gasFormationVolumeFactor_ :=
          resizeScalarBuffer_ dofCount m.gasFormationVolumeFactor_ bufferType } else m
    let m := if saturatedOilFormationVolumeFactorOutput_ t then
      { m with saturatedOilFormationVolumeFactor_ :=
          resizeScalarBuffer_ dofCount m.saturatedOilFormationVolumeFactor_ bufferType } else m
    let m := if oilSaturationPressureOutput_ t then
      { m with oilSaturationPressure_ :=
          resizeScalarBuffer_ dofCount m.oilSaturationPressure_ bufferType } else m
    m

/-- The store `saturation_[phaseIdx][globalDofIdx] = value`. -/
def storeSaturation (globalDofIdx : Int) (value : Fin numPhases → S)
    (phaseIdx : Fin numPhases) (m : EclOutputBlackOilModule S) :
    Option (EclOutputBlackOilModule S) :=
  (storeAt (m.saturation_ phaseIdx) globalDofIdx (value phaseIdx)).map fun b =>
    { m with saturation_ := Function.update m.saturation_ phaseIdx b }

/-- The store `pressure_[phaseIdx][globalDofIdx] = value`. -/
def storePressure (globalDofIdx : Int) (value : Fin numPhases → S)
    (phaseIdx : Fin numPhases) (m : EclOutputBlackOilModule S) :
    Option (EclOutputBlackOilModule S) :=
  (storeAt (m.pressure_ phaseIdx) globalDofIdx (value phaseIdx)).map fun b =>
    { m with pressure_ := Function.update m.pressure_ phaseIdx b }

/-- One pass of the loop over `dofIdx` in `processElement`. -/
def processDof [Div S] [OfScientific S] (t : TypeTag) (fsys : FluidSystem S)
    (elemCtx : ElementContext S) (m : EclOutputBlackOilModule S) (dofIdx : Nat) :
    Option (EclOutputBlackOilModule S) :=
  let fs := elemCtx.fluidState dofIdx 0
  let globalDofIdx := elemCtx.globalSpaceIndex dofIdx 0
  let regionIdx := elemCtx.pvtRegionIndex dofIdx 0
  let po := fs.pressure fsys.oilPhaseIdx
  let XoG := fs.massFraction fsys.oilPhaseIdx fsys.gasCompIdx
  (if saturationsOutput_ t then
      forEachPhaseM (storeSaturation globalDofIdx fun phaseIdx => fs.saturation phaseIdx) m
    else some m).bind fun m =>
  (if pressuresOutput_ t then
      forEachPhaseM (storePressure globalDofIdx fun phaseIdx => fs.pressure phaseIdx / 1e5) m
    else some m).bind fun m =>
  (if gasDissolutionFactorOutput_ t then
      (storeAt m.gasDissolutionFactor_ globalDofIdx
        (fsys.gasDissolutionFactor po regionIdx)).map fun b =>
        { m with gasDissolutionFactor_ := b }
    else some m).bind fun m =>
  (if gasFormationVolumeFactorOutput_ t then
      (storeAt m.gasFormationVolumeFactor_ globalDofIdx
        (fsys.gasFormationVolumeFactor po regionIdx)).map fun b =>
        { m with gasFormationVolumeFactor_ := b }
    else some m).bind fun m =>
  (if saturatedOilFormationVolumeFactorOutput_ t then
      (storeAt m.saturatedOilFormationVolumeFactor_ globalDofIdx
        (fsys.saturatedOilFormationVolumeFactor po regionIdx)).map fun b =>
        { m with saturatedOilFormationVolumeFactor_ := b }
    else some m).bind fun m =>
  (if oilSaturationPressureOutput_ t then
      (storeAt m.oilSaturationPressure_ globalDofIdx
        (fsys.oilSaturationPressure XoG regionIdx)).map fun b =>
        { m with oilSaturationPressure_ := b }
    else some m)

/-- The loop of `processElement` over a list of local indices. -/
def processDofs [Div S] [OfScientific S] (t : TypeTag) (fsys : FluidSystem S)
    (elemCtx : ElementContext S) :
    List Nat → EclOutputBlackOilModule S → Option (EclOutputBlackOilModule S)
  | [], m => some m
  | dofIdx :: rest, m =>
    (processDof t fsys elemCtx m dofIdx).bind (processDofs t fsys elemCtx rest)

/-- The method `processElement`; `none` when a store falls outside its buffer. -/
def processElement [Div S] [OfScientific S] (t : TypeTag) (fsys : FluidSystem S)
    (elemCtx : ElementContext S) (m : EclOutputBlackOilModule S) :
    Option (EclOutputBlackOilModule S) :=
  if !t.discretizationIsEcfv then some m
  else processDofs t fsys elemCtx (List.range (elemCtx.numPrimaryDof 0)) m

/-- The method `commitBuffers`: the module and the writer after the call. -/
def commitBuffers (t : TypeTag) (fsys : FluidSystem S) (m : EclOutputBlackOilModule S)
    (writer : BaseOutputWriter S) : EclOutputBlackOilModule S × BaseOutputWriter S :=
  if !t.discretizationIsEcfv then (m, writer)
  else if !writer.isEclWriter then (m, writer)
  else
    let bufferType := BufferType.ElementBuffer
    let writer := if pressuresOutput_ t then
      let writer := commitScalarBuffer_ writer "PRESSURE" (m.pressure_ fsys.oilPhaseIdx)
        (some bufferType)
      let writer := commitScalarBuffer_ writer "PGAS" (m.pressure_ fsys.gasPhaseIdx)
        (some bufferType)
      commitScalarBuffer_ writer "PWAT" (m.pressure_ fsys.waterPhaseIdx) (some bufferType)
      else writer
    let writer := if saturationsOutput_ t then
      let writer := commitScalarBuffer_ writer "SWAT" (m.saturation_ fsys.waterPhaseIdx)
        (some bufferType)
      commitScalarBuffer_ writer "SGAS" (m.saturation_ fsys.gasPhaseIdx) (some bufferType)
      else writer
    let writer := if gasDissolutionFactorOutput_ t then
      commitScalarBuffer_ writer "RS" m.gasDissolutionFactor_ (some bufferType) else writer
    let writer := if gasFormationVolumeFactorOutput_ t then
      commitScalarBuffer_ writer "BG" m.gasFormationVolumeFactor_ (some bufferType) else writer
    let writer := if saturatedOilFormationVolumeFactorOutput_ t then
      commitScalarBuffer_ writer "BOSAT" m.saturatedOilFormationVolumeFactor_ (some bufferType)
      else writer
    let writer := if oilSaturationPressureOutput_ t then
      commitScalarBuffer_ writer "PSAT" m.oilSaturationPressure_ none else writer
    (m, writer)

/-- One call of the module's interface, used to speak of sequences of calls. -/
inductive Operation (S : Type) where
  | allocBuffers (dofCount : Nat)
  | processElement (elemCtx : ElementContext S)
  | commitBuffers (writer : BaseOutputWriter S)

/-- The module after one call; `none` when a store falls outside its buffer. -/
def runOperation [Zero S] [Div S] [OfScientific S] (t : TypeTag) (fsys : FluidSystem S)
    (m : EclOutputBlackOilModule S) : Operation S → Option (EclOutputBlackOilModule S)
  | .allocBuffers dofCount => some (allocBuffers t dofCount m)
  | .processElement elemCtx => processElement t fsys elemCtx m
  | .commitBuffers writer => some (commitBuffers t fsys m writer).1

/-- The module after a sequence of calls. -/
def runOperations [Zero S] [Div S] [OfScientific S] (t : TypeTag) (fsys : FluidSystem S) :
    List (Operation S) → EclOutputBlackOilModule S → Option (EclOutputBlackOilModule S)
  | [], m => some m
  | op :: rest, m => (runOperation t fsys m op).bind (runOperations t fsys rest)

/-- A state the module can be in: the result of some sequence of calls on a
freshly constructed module, the type tag being fixed. -/
def Reachable [Zero S] [Div S] [OfScientific S] (t : TypeTag) (fsys : FluidSystem S)
    (m : EclOutputBlackOilModule S) : Prop :=
  ∃ ops : List (Operation S),
    runOperations t fsys ops EclOutputBlackOilModule.construct = some m

/-- The index is inside the buffer. -/
def InRange (buffer : ScalarBuffer S) (globalDofIdx : Int) : Prop :=
  0 ≤ globalDofIdx ∧ globalDofIdx < buffer.length

instance (buffer : ScalarBuffer S) (globalDofIdx : Int) : Decidable (InRange buffer globalDofIdx) :=
  inferInstanceAs (Decidable (_ ∧ _))

/-- The ten buffers of the module, by name. -/
inductive BufId where
  | saturation (phaseIdx : Fin numPhases)
  | pressure (phaseIdx : Fin numPhases)
  | gasDissolutionFactor
  | gasFormationVolumeFactor
  | saturatedOilFormationVolumeFactor
  | oilSaturationPressure
  deriving DecidableEq

/-- The buffer of that name. -/
def EclOutputBlackOilModule.buf (m : EclOutputBlackOilModule S) : BufId → ScalarBuffer S
  | .saturation phaseIdx => m.saturation_ phaseIdx
  | .pressure phaseIdx => m.pressure_ phaseIdx
  | .gasDissolutionFactor => m.gasDissolutionFactor_
  | .gasFormationVolumeFactor => m.gasFormationVolumeFactor_
  | .saturatedOilFormationVolumeFactor => m.saturatedOilFormationVolumeFactor_
  | .oilSaturationPressure => m.oilSaturationPressure_

/-- The flag that gates the buffer of that name. -/
def enabled (t : TypeTag) : BufId → Bool
  | .saturation _ => saturationsOutput_ t
  | .pressure _ => pressuresOutput_ t
  | .gasDissolutionFactor => gasDissolutionFactorOutput_ t
  | .gasFormationVolumeFactor => gasFormationVolumeFactorOutput_ t
  | .saturatedOilFormationVolumeFactor => saturatedOilFormationVolumeFactorOutput_ t
  | .oilSaturationPressure => oilSaturationPressureOutput_ t

/-- The value `processElement` stores for a local index into the buffer of that name. -/
def dofValue [Div S] [OfScientific S] (fsys : FluidSystem S) (elemCtx : ElementContext S)
    (dofIdx : Nat) : BufId → S
  | .saturation phaseIdx => (elemCtx.fluidState dofIdx 0).saturation phaseIdx
  | .pressure phaseIdx => (elemCtx.fluidState dofIdx 0).pressure phaseIdx / 1e5
  | .gasDissolutionFactor =>
    fsys.gasDissolutionFactor ((elemCtx.fluidState dofIdx 0).pressure fsys.oilPhaseIdx)
      (elemCtx.pvtRegionIndex dofIdx 0)
  | .gasFormationVolumeFactor =>
    fsys.gasFormationVolumeFactor ((elemCtx.fluidState dofIdx 0).pressure fsys.oilPhaseIdx)
      (elemCtx.pvtRegionIndex dofIdx 0)
  | .saturatedOilFormationVolumeFactor =>
    fsys.saturatedOilFormationVolumeFactor
      ((elemCtx.fluidState dofIdx 0).pressure fsys.oilPhaseIdx) (elemCtx.pvtRegionIndex dofIdx 0)
  | .oilSaturationPressure =>
    fsys.oilSaturationPressure
      ((elemCtx.fluidState dofIdx 0).massFraction fsys.oilPhaseIdx fsys.gasCompIdx)
      (elemCtx.pvtRegionIndex dofIdx 0)

/-- Every store of one pass over a local index with that global index is inside its buffer. -/
def DofFits (t : TypeTag) (m : EclOutputBlackOilModule S) (globalDofIdx : Int) : Prop :=
  ∀ i : BufId, enabled t i = true → InRange (m.buf i) globalDofIdx

/-- The stores of a list of local indices replayed on one buffer, without bounds check. -/
def replay (index : Nat → Nat) (value : Nat → S) : List Nat → ScalarBuffer S → ScalarBuffer S
  | [], buffer => buffer
  | dofIdx :: rest, buffer => replay index value rest (buffer.set (index dofIdx) (value dofIdx))

/-- The value of the last store to a slot in such a list of stores, if any. -/
def lastStore (index : Nat → Nat) (value : Nat → S) (slot : Nat) : List Nat → Option S
  | [] => none
  | dofIdx :: rest =>
    match lastStore index value slot rest with
    | some x => some x
    | none => if index dofIdx = slot then some (value dofIdx) else none

/-- The module with the buffer of that name replaced. -/
def EclOutputBlackOilModule.setBuf (m : EclOutputBlackOilModule S) :
    BufId → ScalarBuffer S → EclOutputBlackOilModule S
  | .saturation phaseIdx, b => { m with saturation_ := Function.update m.saturation_ phaseIdx b }
  | .pressure phaseIdx, b => { m with pressure_ := Function.update m.pressure_ phaseIdx b }
  | .gasDissolutionFactor, b => { m with gasDissolutionFactor_ := b }
  | .gasFormationVolumeFactor, b => { m with gasFormationVolumeFactor_ := b }
  | .saturatedOilFormationVolumeFactor, b => { m with saturatedOilFormationVolumeFactor_ := b }
  | .oilSaturationPressure, b => { m with oilSaturationPressure_ := b }

/-- The indexed store into the buffer of that name. -/
def storeBuf (globalDofIdx : Int) (value : BufId → S) (m : EclOutputBlackOilModule S)
    (i : BufId) : Option (EclOutputBlackOilModule S) :=
  (storeAt (m.buf i) globalDofIdx (value i)).map (m.setBuf i)

/-- The ten buffers in the order in which one pass of `processElement` stores into them. -/
def allBufs : List BufId :=
  [.saturation 0, .saturation 1, .saturation 2, .pressure 0, .pressure 1, .pressure 2,
   .gasDissolutionFactor, .gasFormationVolumeFactor, .saturatedOilFormationVolumeFactor,
   .oilSaturationPressure]

/-- The module whose buffers are the given ones. -/
def EclOutputBlackOilModule.ofBuf (f : BufId → ScalarBuffer S) : EclOutputBlackOilModule S :=
  { saturation_ := fun phaseIdx => f (.saturation phaseIdx)
    pressure_ := fun phaseIdx => f (.pressure phaseIdx)
    gasDissolutionFactor_ := f .gasDissolutionFactor
    gasFormationVolumeFactor_ := f .gasFormationVolumeFactor
    saturatedOilFormationVolumeFactor_ := f .saturatedOilFormationVolumeFactor
    oilSaturationPressure_ := f .oilSaturationPressure }

/-- The stores of a list of local indices of an element replayed on the buffer of that name. -/
def replayDofs [Div S] [OfScientific S] (fsys : FluidSystem S) (elemCtx : ElementContext S)
    (l : List Nat) (i : BufId) (buffer : ScalarBuffer S) : ScalarBuffer S :=
  replay (fun dofIdx => (elemCtx.globalSpaceIndex dofIdx 0).toNat)
    (fun dofIdx => dofValue fsys elemCtx dofIdx i) l buffer

/-- The calls of `commitScalarBuffer_` that `commitBuffers` makes once past its two
guards, in the order of the calls. -/
def commitCalls (t : TypeTag) (fsys : FluidSystem S) (m : EclOutputBlackOilModule S) :
    List (AttachedBuffer S) :=
  (if pressuresOutput_ t = true then
      [⟨"PRESSURE", m.pressure_ fsys.oilPhaseIdx, some .ElementBuffer⟩,
       ⟨"PGAS", m.pressure_ fsys.gasPhaseIdx, some .ElementBuffer⟩,
       ⟨"PWAT", m.pressure_ fsys.waterPhaseIdx, some .ElementBuffer⟩] else []) ++
  ((if saturationsOutput_ t = true then
      [⟨"SWAT", m.saturation_ fsys.waterPhaseIdx, some .ElementBuffer⟩,
       ⟨"SGAS", m.saturation_ fsys.gasPhaseIdx, some .ElementBuffer⟩] else []) ++
  ((if gasDissolutionFactorOutput_ t = true then
      [⟨"RS", m.gasDissolutionFactor_, some .ElementBuffer⟩] else []) ++
  ((if gasFormationVolumeFactorOutput_ t = true then
      [⟨"BG", m.gasFormationVolumeFactor_, some .ElementBuffer⟩] else []) ++
  ((if saturatedOilFormationVolumeFactorOutput_ t = true then
      [⟨"BOSAT", m.saturatedOilFormationVolumeFactor_, some .ElementBuffer⟩] else []) ++
  (if oilSaturationPressureOutput_ t = true then
      [⟨"PSAT", m.oilSaturationPressure_, none⟩] else [])))))

end Operations

section Examples

/-- Cell-centered discretization, all six groups written. -/
def tagAll : TypeTag :=
  { discretizationIsEcfv := true
    EclOutputWriteSaturations := true
    EclOutputWritePressures := true
    EclOutputWriteGasDissolutionFactor := true
    EclOutputWriteGasFormationVolumeFactor := true
    EclOutputWriteOilFormationVolumeFactor := true
    EclOutputWriteOilSaturationPressure := true }

/-- Cell-centered discretization, only the pressures written. -/
def tagPressures : TypeTag :=
  { discretizationIsEcfv := true
    EclOutputWriteSaturations := false
    EclOutputWritePressures := true
    EclOutputWriteGasDissolutionFactor := false
    EclOutputWriteGasFormationVolumeFactor := false
    EclOutputWriteOilFormationVolumeFactor := false
    EclOutputWriteOilSaturationPressure := false }

/-- Another discretization, all six groups written. -/
def tagOther : TypeTag :=
  { tagAll with discretizationIsEcfv := false }

/-- A fluid system over the rationals: water 0, oil 1, gas 2, with simple evaluators. -/
def fluidSystemQ : FluidSystem ℚ :=
  { oilPhaseIdx := 1
    gasPhaseIdx := 2
    waterPhaseIdx := 0
    gasCompIdx := 2
    gasDissolutionFactor := fun po regionIdx => po + regionIdx
    gasFormationVolumeFactor := fun po regionIdx => 2 * po + regionIdx
    saturatedOilFormationVolumeFactor := fun po regionIdx => 3 * po + regionIdx
    oilSaturationPressure := fun XoG regionIdx => 4 * XoG + regionIdx }

/-- A fluid state with the same pressure and saturation in every phase. -/
def uniformState (pressure saturation massFraction : ℚ) : FluidState ℚ :=
  { pressure := fun _ => pressure
    saturation := fun _ => saturation
    massFraction := fun _ _ => massFraction }

/-- An element with one primary degree of freedom, at global index 0. -/
def oneDofElement : ElementContext ℚ :=
  { numPrimaryDof := fun _ => 1
    fluidState := fun _ _ => uniformState 100000 (1 / 2) (1 / 4)
    globalSpaceIndex := fun _ _ => 0
    pvtRegionIndex := fun _ _ => 0 }

/-- An element with two primary degrees of freedom that both map to global index 0,
with pressure 100000 at the first and 200000 at the second. -/
def twoDofElement : ElementContext ℚ :=
  { numPrimaryDof := fun _ => 2
    fluidState := fun dofIdx _ =>
      if dofIdx = 0 then uniformState 100000 (1 / 2) (1 / 4) else uniformState 200000 (1 / 3) (1 / 5)
    globalSpaceIndex := fun _ _ => 0
    pvtRegionIndex := fun _ _ => 0 }

/-- An ECL writer with nothing committed yet. -/
def eclWriter : BaseOutputWriter ℚ :=
  { isEclWriter := true, attached := [] }

/-- A writer of another kind with nothing committed yet. -/
def otherWriter : BaseOutputWriter ℚ :=
  { isEclWriter := false, attached := [] }

end Examples

section MoreDefinitions

variable {S : Type}

/-- Whether the call is `allocBuffers`. -/
def Operation.isAlloc : Operation S → Bool
  | .allocBuffers _ => true
  | .processElement _ => false
  | .commitBuffers _ => false

/-- Two elements agree where they meet: primary degrees of freedom of the one and of the
other that share a global index have equal fluid states and equal PVT regions. -/
def AgreeOnSharedDofs (e1 e2 : ElementContext S) : Prop :=
  ∀ d1, d1 < e1.numPrimaryDof 0 → ∀ d2, d2 < e2.numPrimaryDof 0 →
    e1.globalSpaceIndex d1 0 = e2.globalSpaceIndex d2 0 →
      e1.fluidState d1 0 = e2.fluidState d2 0 ∧ e1.pvtRegionIndex d1 0 = e2.pvtRegionIndex d2 0

/-- World dimension of the injection problem, whose grid is `Dune::YaspGrid<2>`. -/
abbrev dimWorld : Nat := 2

/-- Grid dimension of the injection problem. -/
abbrev dim : Nat := 2

/-- A position, `Dune::FieldVector<CoordScalar, dimWorld>`. -/
abbrev GlobalPosition (S : Type) := Fin dimWorld → S

/-- The context handed to `intrinsicPermeability`, as far as it is queried: the position
of a space index at a time index. -/
structure PositionContext (S : Type) where
  pos : Nat → Nat → GlobalPosition S

/-- The data members of `InjectionProblem` that the permeability depends on; `T` is the
tensor type. -/
structure InjectionProblem (S T : Type) where
  fineK_ : T
  coarseK_ : T
  layerBottom_ : S

/-- The constructor of `InjectionProblem`, as far as it sets these members; `toTensor_` is
the helper of the base class, taken as a parameter. -/
def InjectionProblem.construct {T : Type} [OfScientific S] (toTensor_ : S → T) :
    InjectionProblem S T :=
  { layerBottom_ := 22.0
    fineK_ := toTensor_ 1e-13
    coarseK_ := toTensor_ 1e-12 }

/-- The method `isFineMaterial_`: `pos[dim-1] > layerBottom_`. -/
def InjectionProblem.isFineMaterial_ {T : Type} [LT S] [DecidableRel (fun a b : S => a < b)]
    (problem : InjectionProblem S T) (pos : GlobalPosition S) : Bool :=
  decide (pos ⟨dim - 1, by decide⟩ > problem.layerBottom_)

/-- The method `intrinsicPermeability`. -/
def InjectionProblem.intrinsicPermeability {T : Type} [LT S]
    [DecidableRel (fun a b : S => a < b)] (problem : InjectionProblem S T)
    (context : PositionContext S) (spaceIdx timeIdx : Nat) : T :=
  let pos := context.pos spaceIdx timeIdx
  if problem.isFineMaterial_ pos then problem.fineK_
  else problem.coarseK_

/-- Cell-centered discretization, none of the six groups written. -/
def tagNone : TypeTag :=
  { discretizationIsEcfv := true
    EclOutputWriteSaturations := false
    EclOutputWritePressures := false
    EclOutputWriteGasDissolutionFactor := false
    EclOutputWriteGasFormationVolumeFactor := false
    EclOutputWriteOilFormationVolumeFactor := false
    EclOutputWriteOilSaturationPressure := false }

/-- Another discretization, only the pressures written. -/
def tagPressuresOther : TypeTag :=
  { tagPressures with discretizationIsEcfv := false }

/-- The element of the end-to-end scenario: one primary degree of freedom at global index
0, with pressures 2.5e7 (oil), 2.5e7 (gas) and 2.6e7 (water) in the phase numbering of
`fluidSystemQ`. -/
def scenarioElement : ElementContext ℚ :=
  { numPrimaryDof := fun _ => 1
    fluidState := fun _ _ =>
      { pressure := fun phaseIdx => if phaseIdx = 0 then 26000000 else 25000000
        saturation := fun _ => 1 / 3
        massFraction := fun _ _ => 1 / 4 }
    globalSpaceIndex := fun _ _ => 0
    pvtRegionIndex := fun _ _ => 0 }

/-- An element with two primary degrees of freedom, at global indices 0 and 1; at index 0
it carries the state of `oneDofElement`. -/
def pairElement : ElementContext ℚ :=
  { numPrimaryDof := fun _ => 2
    fluidState := fun dofIdx _ =>
      if dofIdx = 0 then uniformState 100000 (1 / 2) (1 / 4) else uniformState 200000 (1 / 3) (1 / 5)
    globalSpaceIndex := fun dofIdx _ => dofIdx
    pvtRegionIndex := fun _ _ => 0 }

/-- A diagonal tensor over the rationals. -/
def diagTensor (k : ℚ) : Fin dimWorld → Fin dimWorld → ℚ :=
  fun i j => if i = j then k else 0

/-- A context whose positions all are the point with the given coordinates. -/
def contextAt (x y : ℚ) : PositionContext ℚ :=
  { pos := fun _ _ => fun i => if i = 0 then x else y }

end MoreDefinitions

section Lemmas

variable {S : Type}

theorem finRange_numPhases : List.finRange numPhases = [0, 1, 2] := by
  decide

theorem buf_ext {m m' : EclOutputBlackOilModule S} (h : ∀ i, m.buf i = m'.buf i) : m = m' := by
  cases m with
  | mk s p a b c d =>
    cases m' with
    | mk s' p' a' b' c' d' =>
      have hs : s = s' := funext fun q => h (.saturation q)
      have hp : p = p' := funext fun q => h (.pressure q)
      have ha := h .gasDissolutionFactor
      have hb := h .gasFormationVolumeFactor
      have hc := h .saturatedOilFormationVolumeFactor
      have hd := h .oilSaturationPressure
      simp only [EclOutputBlackOilModule.buf] at ha hb hc hd
      subst hs hp ha hb hc hd
      rfl

theorem storeAt_eq (buffer : ScalarBuffer S) (g : Int) (v : S) :
    storeAt buffer g v = if InRange buffer g then some (buffer.set g.toNat v) else none := rfl

theorem forEachPhaseM_storeSaturation [Div S] [OfScientific S] (fsys : FluidSystem S)
    (elemCtx : ElementContext S) (dofIdx : Nat) (g : Int) (m : EclOutputBlackOilModule S) :
    forEachPhaseM
        (storeSaturation g fun phaseIdx => (elemCtx.fluidState dofIdx 0).saturation phaseIdx) m =
      [BufId.saturation 0, .saturation 1, .saturation 2].foldlM
        (storeBuf g (dofValue fsys elemCtx dofIdx)) m := by
  unfold forEachPhaseM
  rw [finRange_numPhases]
  rfl

theorem forEachPhaseM_storePressure [Div S] [OfScientific S] (fsys : FluidSystem S)
    (elemCtx : ElementContext S) (dofIdx : Nat) (g : Int) (m : EclOutputBlackOilModule S) :
    forEachPhaseM
        (storePressure g fun phaseIdx => (elemCtx.fluidState dofIdx 0).pressure phaseIdx / 1e5) m =
      [BufId.pressure 0, .pressure 1, .pressure 2].foldlM
        (storeBuf g (dofValue fsys elemCtx dofIdx)) m := by
  unfold forEachPhaseM
  rw [finRange_numPhases]
  rfl

theorem foldlM_storeBuf_single (g : Int) (x : BufId → S) (i : BufId)
    (m : EclOutputBlackOilModule S) :
    [i].foldlM (storeBuf g x) m = storeBuf g x m i := by
  simp [List.foldlM]

theorem ite_foldlM (c : Bool) (g : Int) (x : BufId → S) (l : List BufId)
    (m : EclOutputBlackOilModule S) :
    (if c = true then l.foldlM (storeBuf g x) m else some m) =
      (if c = true then l else []).foldlM (storeBuf g x) m := by
  cases c <;> simp [List.foldlM]

theorem filter_allBufs (t : TypeTag) :
    allBufs.filter (enabled t) =
      (if saturationsOutput_ t = true then
          [BufId.saturation 0, .saturation 1, .saturation 2] else []) ++
      ((if pressuresOutput_ t = true then [BufId.pressure 0, .pressure 1, .pressure 2] else []) ++
      ((if gasDissolutionFactorOutput_ t = true then [BufId.gasDissolutionFactor] else []) ++
      ((if gasFormationVolumeFactorOutput_ t = true then
          [BufId.gasFormationVolumeFactor] else []) ++
      ((if saturatedOilFormationVolumeFactorOutput_ t = true then
          [BufId.saturatedOilFormationVolumeFactor] else []) ++
      (if oilSaturationPressureOutput_ t = true then [BufId.oilSaturationPressure] else []))))) := by
  cases h1 : saturationsOutput_ t <;> cases h2 : pressuresOutput_ t <;>
    cases h3 : gasDissolutionFactorOutput_ t <;>
    cases h4 : gasFormationVolumeFactorOutput_ t <;>
    cases h5 : saturatedOilFormationVolumeFactorOutput_ t <;>
    cases h6 : oilSaturationPressureOutput_ t <;>
    simp [allBufs, enabled, h1, h2, h3, h4, h5, h6, List.filter]

theorem processDof_eq_foldlM [Div S] [OfScientific S] (t : TypeTag) (fsys : FluidSystem S)
    (elemCtx : ElementContext S) (m : EclOutputBlackOilModule S) (dofIdx : Nat) :
    processDof t fsys elemCtx m dofIdx =
      (allBufs.filter (enabled t)).foldlM
        (storeBuf (elemCtx.globalSpaceIndex dofIdx 0) (dofValue fsys elemCtx dofIdx)) m := by
  rw [filter_allBufs]
  simp only [List.foldlM_append, ← ite_foldlM, foldlM_storeBuf_single,
    ← forEachPhaseM_storeSaturation, ← forEachPhaseM_storePressure]
  rfl

theorem buf_ofBuf (f : BufId → ScalarBuffer S) (i : BufId) :
    (EclOutputBlackOilModule.ofBuf f).buf i = f i := by
  cases i <;> rfl

theorem buf_setBuf (m : EclOutputBlackOilModule S) (i j : BufId) (b : ScalarBuffer S) :
    (m.setBuf i b).buf j = if j = i then b else m.buf j := by
  cases i <;> cases j <;>
    simp [EclOutputBlackOilModule.setBuf, EclOutputBlackOilModule.buf, Function.update]

theorem mem_allBufs (i : BufId) : i ∈ allBufs := by
  cases i with
  | saturation p => fin_cases p <;> decide
  | pressure p => fin_cases p <;> decide
  | _ => decide

theorem nodup_allBufs : allBufs.Nodup := by
  decide

theorem storeBuf_some (g : Int) (x : BufId → S) (m : EclOutputBlackOilModule S) (i : BufId)
    (h : InRange (m.buf i) g) :
    storeBuf g x m i = some (m.setBuf i ((m.buf i).set g.toNat (x i))) := by
  simp [storeBuf, storeAt_eq, h]

theorem storeBuf_none (g : Int) (x : BufId → S) (m : EclOutputBlackOilModule S) (i : BufId)
    (h : ¬ InRange (m.buf i) g) : storeBuf g x m i = none := by
  simp [storeBuf, storeAt_eq, h]

theorem foldlM_storeBuf_some (g : Int) (x : BufId → S) (l : List BufId) (hl : l.Nodup)
    (m : EclOutputBlackOilModule S) (h : ∀ i ∈ l, InRange (m.buf i) g) :
    ∃ m', l.foldlM (storeBuf g x) m = some m' ∧
      ∀ j, m'.buf j = if j ∈ l then (m.buf j).set g.toNat (x j) else m.buf j := by
  induction l generalizing m with
  | nil => exact ⟨m, rfl, fun j => by simp⟩
  | cons i l ih =>
    have hi : InRange (m.buf i) g := h i (List.mem_cons_self _ _)
    have hnd := List.nodup_cons.mp hl
    have hrest : ∀ k ∈ l, InRange ((m.setBuf i ((m.buf i).set g.toNat (x i))).buf k) g := by
      intro k hk
      have hne : k ≠ i := fun e => hnd.1 (e ▸ hk)
      rw [buf_setBuf, if_neg hne]
      exact h k (List.mem_cons_of_mem _ hk)
    obtain ⟨m', hm', hb⟩ := ih hnd.2 _ hrest
    refine ⟨m', ?_, ?_⟩
    · rw [List.foldlM_cons, storeBuf_some g x m i hi]
      exact hm'
    · intro j
      rw [hb j, buf_setBuf]
      by_cases hji : j = i
      · subst hji
        simp [hnd.1]
      · simp [hji]

theorem foldlM_storeBuf_none (g : Int) (x : BufId → S) (l : List BufId) (hl : l.Nodup)
    (m : EclOutputBlackOilModule S) (h : ¬ ∀ i ∈ l, InRange (m.buf i) g) :
    l.foldlM (storeBuf g x) m = none := by
  induction l generalizing m with
  | nil => exact absurd (fun i hi => absurd hi (List.not_mem_nil i)) h
  | cons i l ih =>
    have hnd := List.nodup_cons.mp hl
    rw [List.foldlM_cons]
    by_cases hi : InRange (m.buf i) g
    · rw [storeBuf_some g x m i hi]
      apply ih hnd.2
      intro hall
      apply h
      intro k hk
      rcases List.mem_cons.mp hk with rfl | hk'
      · exact hi
      · have hne : k ≠ i := fun e => hnd.1 (e ▸ hk')
        have := hall k hk'
        rwa [buf_setBuf, if_neg hne] at this
    · rw [storeBuf_none g x m i hi]
      rfl

theorem dofFits_iff (t : TypeTag) (m : EclOutputBlackOilModule S) (g : Int) :
    DofFits t m g ↔ ∀ i ∈ allBufs.filter (enabled t), InRange (m.buf i) g := by
  constructor
  · intro h i hi
    exact h i (List.mem_filter.mp hi).2
  · intro h i hi
    exact h i (List.mem_filter.mpr ⟨mem_allBufs i, hi⟩)

theorem processDof_some [Div S] [OfScientific S] (t : TypeTag) (fsys : FluidSystem S)
    (elemCtx : ElementContext S) (m : EclOutputBlackOilModule S) (dofIdx : Nat)
    (h : DofFits t m (elemCtx.globalSpaceIndex dofIdx 0)) :
    processDof t fsys elemCtx m dofIdx =
      some (EclOutputBlackOilModule.ofBuf fun j =>
        if enabled t j = true then replayDofs fsys elemCtx [dofIdx] j (m.buf j) else m.buf j) := by
  rw [processDof_eq_foldlM]
  obtain ⟨m', hm', hb⟩ := foldlM_storeBuf_some (elemCtx.globalSpaceIndex dofIdx 0)
    (dofValue fsys elemCtx dofIdx) _ (nodup_allBufs.filter _) m ((dofFits_iff t m _).mp h)
  rw [hm']
  congr 1
  apply buf_ext
  intro j
  rw [hb j, buf_ofBuf]
  by_cases hj : enabled t j = true
  · simp [hj, List.mem_filter, mem_allBufs, replayDofs, replay]
  · simp [hj, List.mem_filter]

theorem processDof_none [Div S] [OfScientific S] (t : TypeTag) (fsys : FluidSystem S)
    (elemCtx : ElementContext S) (m : EclOutputBlackOilModule S) (dofIdx : Nat)
    (h : ¬ DofFits t m (elemCtx.globalSpaceIndex dofIdx 0)) :
    processDof t fsys elemCtx m dofIdx = none := by
  rw [processDof_eq_foldlM]
  exact foldlM_storeBuf_none _ _ _ (nodup_allBufs.filter _) m
    (fun hall => h ((dofFits_iff t m _).mpr hall))

theorem length_replay (index : Nat → Nat) (value : Nat → S) (l : List Nat)
    (b : ScalarBuffer S) : (replay index value l b).length = b.length := by
  induction l generalizing b with
  | nil => rfl
  | cons d l ih => simp [replay, ih]

theorem getElem?_replay (index : Nat → Nat) (value : Nat → S) (l : List Nat)
    (b : ScalarBuffer S) (k : Nat) :
    (replay index value l b)[k]? =
      match lastStore index value k l with
      | some x => if k < b.length then some x else none
      | none => b[k]? := by
  induction l generalizing b with
  | nil => rfl
  | cons d l ih =>
    rw [replay, ih, lastStore]
    cases hl : lastStore index value k l with
    | some x => simp
    | none =>
      by_cases hk : index d = k
      · subst hk
        by_cases hlt : index d < b.length
        · simp [hlt]
        · simp [hlt]
          omega
      · simp [hk, List.getElem?_set_ne hk]

theorem replay_replay (index : Nat → Nat) (value : Nat → S) (l : List Nat)
    (b : ScalarBuffer S) :
    replay index value l (replay index value l b) = replay index value l b := by
  apply List.ext_getElem?
  intro k
  rw [getElem?_replay index value l (replay index value l b), length_replay]
  cases hl : lastStore index value k l with
  | some x => simp [getElem?_replay, hl]
  | none => simp

theorem lastStore_concat (index : Nat → Nat) (value : Nat → S) (k : Nat) (l : List Nat)
    (d : Nat) :
    lastStore index value k (l ++ [d]) =
      if index d = k then some (value d) else lastStore index value k l := by
  induction l with
  | nil => simp [lastStore]
  | cons a l ih =>
    rw [List.cons_append, lastStore, ih, lastStore]
    by_cases hd : index d = k
    · simp [hd]
    · simp [hd]

theorem lastStore_range (index : Nat → Nat) (value : Nat → S) (n d : Nat) (hd : d < n)
    (hlast : ∀ d', d < d' → d' < n → index d' ≠ index d) :
    lastStore index value (index d) (List.range n) = some (value d) := by
  induction n with
  | zero => exact absurd hd (Nat.not_lt_zero d)
  | succ n ih =>
    rw [List.range_succ, lastStore_concat]
    by_cases hdn : d = n
    · subst hdn
      simp
    · have hlt : d < n := by omega
      rw [if_neg (hlast n hlt (Nat.lt_succ_self n))]
      exact ih hlt (fun d' h1 h2 => hlast d' h1 (by omega))

theorem dofFits_congr (t : TypeTag) (m m' : EclOutputBlackOilModule S) (g : Int)
    (hlen : ∀ i, (m'.buf i).length = (m.buf i).length) : DofFits t m' g ↔ DofFits t m g := by
  unfold DofFits InRange
  constructor
  · intro h i hi
    have := h i hi
    rwa [hlen i] at this
  · intro h i hi
    rw [hlen i]
    exact h i hi

theorem length_buf_after [Div S] [OfScientific S] (t : TypeTag) (fsys : FluidSystem S)
    (elemCtx : ElementContext S) (l : List Nat) (m : EclOutputBlackOilModule S) (i : BufId) :
    ((EclOutputBlackOilModule.ofBuf fun j =>
        if enabled t j = true then replayDofs fsys elemCtx l j (m.buf j) else m.buf j).buf i).length =
      (m.buf i).length := by
  rw [buf_ofBuf]
  by_cases hi : enabled t i = true
  · simp [hi, replayDofs, length_replay]
  · simp [hi]

theorem processDofs_some [Div S] [OfScientific S] (t : TypeTag) (fsys : FluidSystem S)
    (elemCtx : ElementContext S) (l : List Nat) (m : EclOutputBlackOilModule S)
    (h : ∀ d ∈ l, DofFits t m (elemCtx.globalSpaceIndex d 0)) :
    processDofs t fsys elemCtx l m =
      some (EclOutputBlackOilModule.ofBuf fun j =>
        if enabled t j = true then replayDofs fsys elemCtx l j (m.buf j) else m.buf j) := by
  induction l generalizing m with
  | nil =>
    rw [processDofs]
    congr 1
    apply buf_ext
    intro j
    rw [buf_ofBuf]
    simp [replayDofs, replay]
  | cons d l ih =>
    rw [processDofs, processDof_some t fsys elemCtx m d (h d (List.mem_cons_self _ _))]
    rw [Option.some_bind, ih]
    · congr 1
      apply buf_ext
      intro j
      simp only [buf_ofBuf]
      by_cases hj : enabled t j = true
      · simp [hj, replayDofs, replay]
      · simp [hj]
    · intro d' hd'
      exact (dofFits_congr t m _ _ (length_buf_after t fsys elemCtx [d] m)).mpr
        (h d' (List.mem_cons_of_mem _ hd'))

theorem processDofs_none [Div S] [OfScientific S] (t : TypeTag) (fsys : FluidSystem S)
    (elemCtx : ElementContext S) (l : List Nat) (m : EclOutputBlackOilModule S)
    (h : ¬ ∀ d ∈ l, DofFits t m (elemCtx.globalSpaceIndex d 0)) :
    processDofs t fsys elemCtx l m = none := by
  induction l generalizing m with
  | nil => exact absurd (fun d hd => absurd hd (List.not_mem_nil d)) h
  | cons d l ih =>
    rw [processDofs]
    by_cases hd : DofFits t m (elemCtx.globalSpaceIndex d 0)
    · rw [processDof_some t fsys elemCtx m d hd, Option.some_bind]
      apply ih
      intro hall
      apply h
      intro d' hd'
      rcases List.mem_cons.mp hd' with rfl | hd''
      · exact hd
      · exact (dofFits_congr t m _ _ (length_buf_after t fsys elemCtx [d] m)).mp (hall d' hd'')
    · rw [processDof_none t fsys elemCtx m d hd]
      rfl

theorem forEachPhase_resizeSaturation [Zero S] (n : Nat) (bt : BufferType)
    (m : EclOutputBlackOilModule S) :
    forEachPhase (resizeSaturation n bt) m =
      { m with saturation_ := fun _ => List.replicate n 0 } := by
  unfold forEachPhase
  rw [finRange_numPhases]
  simp only [List.foldl, resizeSaturation, resizeScalarBuffer_]
  congr 1
  funext p
  have h3 : p = 0 ∨ p = 1 ∨ p = 2 := by
    fin_cases p <;> decide
  rcases h3 with rfl | rfl | rfl <;> simp [Function.update]

theorem forEachPhase_resizePressure [Zero S] (n : Nat) (bt : BufferType)
    (m : EclOutputBlackOilModule S) :
    forEachPhase (resizePressure n bt) m =
      { m with pressure_ := fun _ => List.replicate n 0 } := by
  unfold forEachPhase
  rw [finRange_numPhases]
  simp only [List.foldl, resizePressure, resizeScalarBuffer_]
  congr 1
  funext p
  have h3 : p = 0 ∨ p = 1 ∨ p = 2 := by
    fin_cases p <;> decide
  rcases h3 with rfl | rfl | rfl <;> simp [Function.update]

theorem fin_numPhases_cases (p : Fin numPhases) : p = 0 ∨ p = 1 ∨ p = 2 := by
  fin_cases p <;> decide

theorem allocBuffers_buf [Zero S] (t : TypeTag) (n : Nat) (m : EclOutputBlackOilModule S)
    (hE : t.discretizationIsEcfv = true) (i : BufId) :
    (allocBuffers t n m).buf i = if enabled t i = true then List.replicate n 0 else m.buf i := by
  obtain ⟨e, s, p, a, b, c, d⟩ := t
  simp only at hE
  subst hE
  cases i with
  | saturation q =>
    rcases fin_numPhases_cases q with rfl | rfl | rfl <;>
      cases s <;> cases p <;> cases a <;> cases b <;> cases c <;> cases d <;> rfl
  | pressure q =>
    rcases fin_numPhases_cases q with rfl | rfl | rfl <;>
      cases s <;> cases p <;> cases a <;> cases b <;> cases c <;> cases d <;> rfl
  | _ => cases s <;> cases p <;> cases a <;> cases b <;> cases c <;> cases d <;> rfl

theorem allocBuffers_not_ecfv [Zero S] (t : TypeTag) (n : Nat) (m : EclOutputBlackOilModule S)
    (hE : t.discretizationIsEcfv = false) : allocBuffers t n m = m := by
  simp [allocBuffers, hE]

theorem processElement_not_ecfv [Div S] [OfScientific S] (t : TypeTag) (fsys : FluidSystem S)
    (elemCtx : ElementContext S) (m : EclOutputBlackOilModule S)
    (hE : t.discretizationIsEcfv = false) : processElement t fsys elemCtx m = some m := by
  simp [processElement, hE]

theorem commitBuffers_fst (t : TypeTag) (fsys : FluidSystem S) (m : EclOutputBlackOilModule S)
    (w : BaseOutputWriter S) : (commitBuffers t fsys m w).1 = m := by
  unfold commitBuffers
  cases t.discretizationIsEcfv <;> cases w.isEclWriter <;> rfl

theorem commitBuffers_not_ecfv (t : TypeTag) (fsys : FluidSystem S)
    (m : EclOutputBlackOilModule S) (w : BaseOutputWriter S)
    (hE : t.discretizationIsEcfv = false) : commitBuffers t fsys m w = (m, w) := by
  simp [commitBuffers, hE]

theorem commitBuffers_not_ecl (t : TypeTag) (fsys : FluidSystem S)
    (m : EclOutputBlackOilModule S) (w : BaseOutputWriter S)
    (hW : w.isEclWriter = false) : commitBuffers t fsys m w = (m, w) := by
  unfold commitBuffers
  cases t.discretizationIsEcfv <;> simp [hW]

theorem commitBuffers_eq (t : TypeTag) (fsys : FluidSystem S) (m : EclOutputBlackOilModule S)
    (w : BaseOutputWriter S) (hE : t.discretizationIsEcfv = true)
    (hW : w.isEclWriter = true) :
    commitBuffers t fsys m w = (m, { w with attached := w.attached ++ commitCalls t fsys m }) := by
  obtain ⟨e, a⟩ := w
  simp only at hW
  subst hW
  unfold commitBuffers commitCalls
  simp only [hE, Bool.not_true, Bool.false_eq_true, if_false]
  cases h1 : saturationsOutput_ t <;> cases h2 : pressuresOutput_ t <;>
    cases h3 : gasDissolutionFactorOutput_ t <;>
    cases h4 : gasFormationVolumeFactorOutput_ t <;>
    cases h5 : saturatedOilFormationVolumeFactorOutput_ t <;>
    cases h6 : oilSaturationPressureOutput_ t <;>
    simp [commitScalarBuffer_]

theorem processElement_some [Div S] [OfScientific S] (t : TypeTag) (fsys : FluidSystem S)
    (elemCtx : ElementContext S) (m : EclOutputBlackOilModule S)
    (hE : t.discretizationIsEcfv = true)
    (h : ∀ d, d < elemCtx.numPrimaryDof 0 → DofFits t m (elemCtx.globalSpaceIndex d 0)) :
    processElement t fsys elemCtx m =
      some (EclOutputBlackOilModule.ofBuf fun j =>
        if enabled t j = true then
          replayDofs fsys elemCtx (List.range (elemCtx.numPrimaryDof 0)) j (m.buf j)
        else m.buf j) := by
  unfold processElement
  simp only [hE, Bool.not_true, Bool.false_eq_true, if_false]
  exact processDofs_some t fsys elemCtx _ m (fun d hd => h d (List.mem_range.mp hd))

theorem processElement_none [Div S] [OfScientific S] (t : TypeTag) (fsys : FluidSystem S)
    (elemCtx : ElementContext S) (m : EclOutputBlackOilModule S)
    (hE : t.discretizationIsEcfv = true)
    (h : ¬ ∀ d, d < elemCtx.numPrimaryDof 0 → DofFits t m (elemCtx.globalSpaceIndex d 0)) :
    processElement t fsys elemCtx m = none := by
  unfold processElement
  simp only [hE, Bool.not_true, Bool.false_eq_true, if_false]
  exact processDofs_none t fsys elemCtx _ m
    (fun hall => h (fun d hd => hall d (List.mem_range.mpr hd)))

theorem dofFits_allocBuffers [Zero S] (t : TypeTag) (n : Nat) (m : EclOutputBlackOilModule S)
    (hE : t.discretizationIsEcfv = true) (g : Int) (h0 : 0 ≤ g) (hn : g < n) :
    DofFits t (allocBuffers t n m) g := by
  intro i hi
  rw [allocBuffers_buf t n m hE i, if_pos hi]
  exact ⟨h0, by simpa using hn⟩

theorem allocBuffers_saturation_ [Zero S] (t : TypeTag) (n : Nat)
    (m : EclOutputBlackOilModule S) (hE : t.discretizationIsEcfv = true) (p : Fin numPhases) :
    (allocBuffers t n m).saturation_ p =
      if saturationsOutput_ t = true then List.replicate n 0 else m.saturation_ p :=
  allocBuffers_buf t n m hE (.saturation p)

theorem allocBuffers_pressure_ [Zero S] (t : TypeTag) (n : Nat)
    (m : EclOutputBlackOilModule S) (hE : t.discretizationIsEcfv = true) (p : Fin numPhases) :
    (allocBuffers t n m).pressure_ p =
      if pressuresOutput_ t = true then List.replicate n 0 else m.pressure_ p :=
  allocBuffers_buf t n m hE (.pressure p)

theorem allocBuffers_gasDissolutionFactor_ [Zero S] (t : TypeTag) (n : Nat)
    (m : EclOutputBlackOilModule S) (hE : t.discretizationIsEcfv = true) :
    (allocBuffers t n m).gasDissolutionFactor_ =
      if gasDissolutionFactorOutput_ t = true then List.replicate n 0
      else m.gasDissolutionFactor_ :=
  allocBuffers_buf t n m hE .gasDissolutionFactor

theorem allocBuffers_gasFormationVolumeFactor_ [Zero S] (t : TypeTag) (n : Nat)
    (m : EclOutputBlackOilModule S) (hE : t.discretizationIsEcfv = true) :
    (allocBuffers t n m).gasFormationVolumeFactor_ =
      if gasFormationVolumeFactorOutput_ t = true then List.replicate n 0
      else m.gasFormationVolumeFactor_ :=
  allocBuffers_buf t n m hE .gasFormationVolumeFactor

theorem allocBuffers_saturatedOilFormationVolumeFactor_ [Zero S] (t : TypeTag) (n : Nat)
    (m : EclOutputBlackOilModule S) (hE : t.discretizationIsEcfv = true) :
    (allocBuffers t n m).saturatedOilFormationVolumeFactor_ =
      if saturatedOilFormationVolumeFactorOutput_ t = true then List.replicate n 0
      else m.saturatedOilFormationVolumeFactor_ :=
  allocBuffers_buf t n m hE .saturatedOilFormationVolumeFactor

theorem allocBuffers_oilSaturationPressure_ [Zero S] (t : TypeTag) (n : Nat)
    (m : EclOutputBlackOilModule S) (hE : t.discretizationIsEcfv = true) :
    (allocBuffers t n m).oilSaturationPressure_ =
      if oilSaturationPressureOutput_ t = true then List.replicate n 0
      else m.oilSaturationPressure_ :=
  allocBuffers_buf t n m hE .oilSaturationPressure

theorem getElem?_replayDofs_range [Div S] [OfScientific S] (fsys : FluidSystem S)
    (elemCtx : ElementContext S) (nd d : Nat) (i : BufId) (b : ScalarBuffer S) (hd : d < nd)
    (hnonneg : ∀ d', d' < nd → 0 ≤ elemCtx.globalSpaceIndex d' 0)
    (hlast : ∀ d', d < d' → d' < nd →
      elemCtx.globalSpaceIndex d' 0 ≠ elemCtx.globalSpaceIndex d 0)
    (hb : elemCtx.globalSpaceIndex d 0 < b.length) :
    (replayDofs fsys elemCtx (List.range nd) i b)[(elemCtx.globalSpaceIndex d 0).toNat]? =
      some (dofValue fsys elemCtx d i) := by
  unfold replayDofs
  rw [getElem?_replay]
  have hl := lastStore_range (fun dofIdx => (elemCtx.globalSpaceIndex dofIdx 0).toNat)
    (fun dofIdx => dofValue fsys elemCtx dofIdx i) nd d hd (by
      intro d' h1 h2 heq
      apply hlast d' h1 h2
      have h0 := hnonneg d' h2
      have h0d := hnonneg d hd
      simp only at heq
      omega)
  simp only at hl
  rw [hl]
  have h0d := hnonneg d hd
  have : (elemCtx.globalSpaceIndex d 0).toNat < b.length := by omega
  simp [this]

theorem runOperations_not_ecfv [Zero S] [Div S] [OfScientific S] (t : TypeTag)
    (fsys : FluidSystem S) (hE : t.discretizationIsEcfv = false) (ops : List (Operation S))
    (m : EclOutputBlackOilModule S) : runOperations t fsys ops m = some m := by
  induction ops with
  | nil => rfl
  | cons op rest ih =>
    rw [runOperations]
    cases op with
    | allocBuffers n =>
      simp only [runOperation, allocBuffers_not_ecfv t n m hE, Option.some_bind, ih]
    | processElement e =>
      simp only [runOperation, processElement_not_ecfv t fsys e m hE, Option.some_bind, ih]
    | commitBuffers w =>
      simp only [runOperation, commitBuffers_fst, Option.some_bind, ih]

theorem processElement_slot [Zero S] [Div S] [OfScientific S] (t : TypeTag)
    (fsys : FluidSystem S) (elemCtx : ElementContext S) (m : EclOutputBlackOilModule S)
    (d : Nat) (hm : Reachable t fsys m)
    (hR : ∀ d', d' < elemCtx.numPrimaryDof 0 → DofFits t m (elemCtx.globalSpaceIndex d' 0))
    (hd : d < elemCtx.numPrimaryDof 0)
    (hlast : ∀ d', d < d' → d' < elemCtx.numPrimaryDof 0 →
      elemCtx.globalSpaceIndex d' 0 ≠ elemCtx.globalSpaceIndex d 0) :
    ∃ m', processElement t fsys elemCtx m = some m' ∧
      ∀ i, enabled t i = true →
        (m'.buf i)[(elemCtx.globalSpaceIndex d 0).toNat]? = some (dofValue fsys elemCtx d i) := by
  cases hE : t.discretizationIsEcfv with
  | true =>
    refine ⟨_, processElement_some t fsys elemCtx m hE hR, ?_⟩
    intro i hi
    rw [buf_ofBuf, if_pos hi]
    exact getElem?_replayDofs_range fsys elemCtx _ d i _ hd
      (fun d' hd' => (hR d' hd' i hi).1) hlast (hR d hd i hi).2
  | false =>
    refine ⟨m, processElement_not_ecfv t fsys elemCtx m hE, ?_⟩
    intro i hi
    obtain ⟨ops, hops⟩ := hm
    rw [runOperations_not_ecfv t fsys hE ops] at hops
    have hmc : m = EclOutputBlackOilModule.construct := (Option.some.inj hops).symm
    have hr := hR d hd i hi
    rw [hmc] at hr
    have hlen : ((EclOutputBlackOilModule.construct : EclOutputBlackOilModule S).buf i).length
        = 0 := by
      cases i <;> rfl
    unfold InRange at hr
    rw [hlen] at hr
    exact absurd hr.2 (by
      have := hr.1
      simp only [Nat.cast_zero]
      omega)

theorem lastStore_eq_none (index : Nat → Nat) (value : Nat → S) (k : Nat) (l : List Nat)
    (h : ∀ d ∈ l, index d ≠ k) : lastStore index value k l = none := by
  induction l with
  | nil => rfl
  | cons a l ih =>
    rw [lastStore, ih (fun d hd => h d (List.mem_cons_of_mem _ hd))]
    simp [h a (List.mem_cons_self _ _)]

theorem lastStore_eq_some (index : Nat → Nat) (value : Nat → S) (k : Nat) (l : List Nat)
    (x : S) (h : lastStore index value k l = some x) :
    ∃ d ∈ l, index d = k ∧ value d = x := by
  induction l with
  | nil => simp [lastStore] at h
  | cons a l ih =>
    rw [lastStore] at h
    cases hl : lastStore index value k l with
    | some y =>
      rw [hl] at h
      obtain ⟨d, hd, hk, hv⟩ := ih (by rw [hl]; exact h)
      exact ⟨d, List.mem_cons_of_mem _ hd, hk, hv⟩
    | none =>
      rw [hl] at h
      by_cases ha : index a = k
      · simp only [ha, if_true] at h
        exact ⟨a, List.mem_cons_self _ _, ha, Option.some.inj h⟩
      · simp [ha] at h

theorem lastStore_none_imp (index : Nat → Nat) (value : Nat → S) (k : Nat) (l : List Nat)
    (h : lastStore index value k l = none) : ∀ d ∈ l, index d ≠ k := by
  induction l with
  | nil =>
    intro d hd
    exact absurd hd (List.not_mem_nil d)
  | cons a l ih =>
    rw [lastStore] at h
    cases hl : lastStore index value k l with
    | some y => simp [hl] at h
    | none =>
      rw [hl] at h
      intro d hd
      rcases List.mem_cons.mp hd with rfl | hd'
      · intro hk
        simp [hk] at h
      · exact ih hl d hd'

theorem lastStore_isSome (index : Nat → Nat) (value : Nat → S) (k : Nat) (l : List Nat)
    (h : ∃ d ∈ l, index d = k) : ∃ x, lastStore index value k l = some x := by
  cases hl : lastStore index value k l with
  | some x => exact ⟨x, rfl⟩
  | none =>
    obtain ⟨d, hd, hk⟩ := h
    exact absurd hk (lastStore_none_imp index value k l hl d hd)

theorem processElement_some_inv [Div S] [OfScientific S] (t : TypeTag) (fsys : FluidSystem S)
    (elemCtx : ElementContext S) (m m' : EclOutputBlackOilModule S)
    (hE : t.discretizationIsEcfv = true) (h : processElement t fsys elemCtx m = some m') :
    (∀ d, d < elemCtx.numPrimaryDof 0 → DofFits t m (elemCtx.globalSpaceIndex d 0)) ∧
    m' = EclOutputBlackOilModule.ofBuf fun j =>
        if enabled t j = true then
          replayDofs fsys elemCtx (List.range (elemCtx.numPrimaryDof 0)) j (m.buf j)
        else m.buf j := by
  by_cases hfit : ∀ d, d < elemCtx.numPrimaryDof 0 →
      DofFits t m (elemCtx.globalSpaceIndex d 0)
  · refine ⟨hfit, ?_⟩
    rw [processElement_some t fsys elemCtx m hE hfit] at h
    exact (Option.some.inj h).symm
  · rw [processElement_none t fsys elemCtx m hE hfit] at h
    exact absurd h (by simp)

theorem processElement_length [Div S] [OfScientific S] (t : TypeTag) (fsys : FluidSystem S)
    (elemCtx : ElementContext S) (m m' : EclOutputBlackOilModule S)
    (h : processElement t fsys elemCtx m = some m') (i : BufId) :
    (m'.buf i).length = (m.buf i).length := by
  cases hE : t.discretizationIsEcfv with
  | false =>
    rw [processElement_not_ecfv t fsys elemCtx m hE] at h
    rw [← Option.some.inj h]
  | true =>
    rw [(processElement_some_inv t fsys elemCtx m m' hE h).2]
    exact length_buf_after t fsys elemCtx _ m i

theorem runOperations_length [Zero S] [Div S] [OfScientific S] (t : TypeTag)
    (fsys : FluidSystem S) (ops : List (Operation S))
    (hops : ∀ op ∈ ops, op.isAlloc = false) (m m' : EclOutputBlackOilModule S)
    (h : runOperations t fsys ops m = some m') (i : BufId) :
    (m'.buf i).length = (m.buf i).length := by
  induction ops generalizing m with
  | nil =>
    rw [runOperations] at h
    rw [← Option.some.inj h]
  | cons op rest ih =>
    rw [runOperations] at h
    have hrest : ∀ op' ∈ rest, op'.isAlloc = false :=
      fun op' ho => hops op' (List.mem_cons_of_mem _ ho)
    have hop := hops op (List.mem_cons_self _ _)
    cases op with
    | allocBuffers n => simp [Operation.isAlloc] at hop
    | processElement e =>
      simp only [runOperation] at h
      cases hp : processElement t fsys e m with
      | none => simp [hp] at h
      | some m1 =>
        rw [hp, Option.some_bind] at h
        rw [ih hrest m1 h, processElement_length t fsys e m m1 hp i]
    | commitBuffers w =>
      simp only [runOperation, commitBuffers_fst, Option.some_bind] at h
      exact ih hrest m h

theorem processElement_getElem? [Div S] [OfScientific S] (t : TypeTag) (fsys : FluidSystem S)
    (elemCtx : ElementContext S) (m m' : EclOutputBlackOilModule S)
    (hE : t.discretizationIsEcfv = true) (h : processElement t fsys elemCtx m = some m')
    (j : BufId) (hj : enabled t j = true) (k : Nat) :
    (m'.buf j)[k]? =
      match lastStore (fun dofIdx => (elemCtx.globalSpaceIndex dofIdx 0).toNat)
          (fun dofIdx => dofValue fsys elemCtx dofIdx j) k
          (List.range (elemCtx.numPrimaryDof 0)) with
      | some x => if k < (m.buf j).length then some x else none
      | none => (m.buf j)[k]? := by
  rw [(processElement_some_inv t fsys elemCtx m m' hE h).2, buf_ofBuf, if_pos hj]
  unfold replayDofs
  rw [getElem?_replay]

theorem processElement_disabled [Div S] [OfScientific S] (t : TypeTag) (fsys : FluidSystem S)
    (elemCtx : ElementContext S) (m m' : EclOutputBlackOilModule S)
    (h : processElement t fsys elemCtx m = some m') (j : BufId) (hj : enabled t j = false) :
    m'.buf j = m.buf j := by
  cases hE : t.discretizationIsEcfv with
  | false =>
    rw [processElement_not_ecfv t fsys elemCtx m hE] at h
    rw [← Option.some.inj h]
  | true =>
    rw [(processElement_some_inv t fsys elemCtx m m' hE h).2, buf_ofBuf]
    simp [hj]

theorem enabled_false_of_flags (t : TypeTag)
    (h1 : saturationsOutput_ t = false) (h2 : pressuresOutput_ t = false)
    (h3 : gasDissolutionFactorOutput_ t = false)
    (h4 : gasFormationVolumeFactorOutput_ t = false)
    (h5 : saturatedOilFormationVolumeFactorOutput_ t = false)
    (h6 : oilSaturationPressureOutput_ t = false) (i : BufId) : enabled t i = false := by
  cases i <;> simp [enabled, h1, h2, h3, h4, h5, h6]

theorem dofValue_congr [Div S] [OfScientific S] (fsys : FluidSystem S)
    (e1 e2 : ElementContext S) (d1 d2 : Nat)
    (hfs : e1.fluidState d1 0 = e2.fluidState d2 0)
    (hr : e1.pvtRegionIndex d1 0 = e2.pvtRegionIndex d2 0) (j : BufId) :
    dofValue fsys e1 d1 j = dofValue fsys e2 d2 j := by
  cases j <;> simp only [dofValue, hfs, hr]

theorem processElement_fits_after [Div S] [OfScientific S] (t : TypeTag)
    (fsys : FluidSystem S) (e1 e2 : ElementContext S) (m m1 : EclOutputBlackOilModule S)
    (h1 : processElement t fsys e1 m = some m1) :
    (∀ d, d < e2.numPrimaryDof 0 → DofFits t m1 (e2.globalSpaceIndex d 0)) ↔
    (∀ d, d < e2.numPrimaryDof 0 → DofFits t m (e2.globalSpaceIndex d 0)) := by
  constructor
  · intro h d hd
    exact (dofFits_congr t m m1 _ (processElement_length t fsys e1 m m1 h1)).mp (h d hd)
  · intro h d hd
    exact (dofFits_congr t m m1 _ (processElement_length t fsys e1 m m1 h1)).mpr (h d hd)

theorem processElement_two_getElem? [Div S] [OfScientific S] (t : TypeTag)
    (fsys : FluidSystem S) (e1 e2 : ElementContext S) (m m1 m12 : EclOutputBlackOilModule S)
    (hE : t.discretizationIsEcfv = true)
    (h1 : processElement t fsys e1 m = some m1) (h12 : processElement t fsys e2 m1 = some m12)
    (j : BufId) (hj : enabled t j = true) (k : Nat) :
    (m12.buf j)[k]? =
      match lastStore (fun dofIdx => (e2.globalSpaceIndex dofIdx 0).toNat)
          (fun dofIdx => dofValue fsys e2 dofIdx j) k (List.range (e2.numPrimaryDof 0)) with
      | some x => if k < (m.buf j).length then some x else none
      | none =>
        match lastStore (fun dofIdx => (e1.globalSpaceIndex dofIdx 0).toNat)
            (fun dofIdx => dofValue fsys e1 dofIdx j) k (List.range (e1.numPrimaryDof 0)) with
        | some y => if k < (m.buf j).length then some y else none
        | none => (m.buf j)[k]? := by
  rw [processElement_getElem? t fsys e2 m1 m12 hE h12 j hj k,
    processElement_length t fsys e1 m m1 h1 j,
    processElement_getElem? t fsys e1 m m1 hE h1 j hj k]

theorem processElement_commute_some [Div S] [OfScientific S] (t : TypeTag)
    (fsys : FluidSystem S) (e1 e2 : ElementContext S)
    (m m1 m2 m12 m21 : EclOutputBlackOilModule S)
    (hagree : AgreeOnSharedDofs e1 e2)
    (h1 : processElement t fsys e1 m = some m1) (h12 : processElement t fsys e2 m1 = some m12)
    (h2 : processElement t fsys e2 m = some m2) (h21 : processElement t fsys e1 m2 = some m21) :
    m12 = m21 := by
  apply buf_ext
  intro j
  cases hj : enabled t j with
  | false =>
    rw [processElement_disabled t fsys e2 m1 m12 h12 j hj,
      processElement_disabled t fsys e1 m m1 h1 j hj,
      processElement_disabled t fsys e1 m2 m21 h21 j hj,
      processElement_disabled t fsys e2 m m2 h2 j hj]
  | true =>
    cases hE : t.discretizationIsEcfv with
    | false =>
      rw [processElement_not_ecfv t fsys _ _ hE] at h1 h12 h2 h21
      rw [← Option.some.inj h12, ← Option.some.inj h1, ← Option.some.inj h21,
        ← Option.some.inj h2]
    | true =>
      apply List.ext_getElem?
      intro k
      rw [processElement_two_getElem? t fsys e1 e2 m m1 m12 hE h1 h12 j hj k,
        processElement_two_getElem? t fsys e2 e1 m m2 m21 hE h2 h21 j hj k]
      cases hl2 : lastStore (fun dofIdx => (e2.globalSpaceIndex dofIdx 0).toNat)
          (fun dofIdx => dofValue fsys e2 dofIdx j) k (List.range (e2.numPrimaryDof 0)) with
      | none =>
        cases hl1 : lastStore (fun dofIdx => (e1.globalSpaceIndex dofIdx 0).toNat)
            (fun dofIdx => dofValue fsys e1 dofIdx j) k (List.range (e1.numPrimaryDof 0)) <;>
          rfl
      | some x =>
        cases hl1 : lastStore (fun dofIdx => (e1.globalSpaceIndex dofIdx 0).toNat)
            (fun dofIdx => dofValue fsys e1 dofIdx j) k (List.range (e1.numPrimaryDof 0)) with
        | none => rfl
        | some y =>
          obtain ⟨d2, hd2, hk2, hv2⟩ := lastStore_eq_some _ _ _ _ _ hl2
          obtain ⟨d1, hd1, hk1, hv1⟩ := lastStore_eq_some _ _ _ _ _ hl1
          have hd1' := List.mem_range.mp hd1
          have hd2' := List.mem_range.mp hd2
          have hf1 := ((processElement_some_inv t fsys e1 m m1 hE h1).1 d1 hd1' j hj).1
          have hf2 := ((processElement_some_inv t fsys e2 m m2 hE h2).1 d2 hd2' j hj).1
          have hk1' : (e1.globalSpaceIndex d1 0).toNat = k := hk1
          have hk2' : (e2.globalSpaceIndex d2 0).toNat = k := hk2
          have hg : e1.globalSpaceIndex d1 0 = e2.globalSpaceIndex d2 0 := by
            omega
          obtain ⟨hfs, hr⟩ := hagree d1 hd1' d2 hd2' hg
          have hxy : x = y := by
            rw [← hv2, ← hv1]
            exact (dofValue_congr fsys e1 e2 d1 d2 hfs hr j).symm
          simp only [hxy]

theorem processElement_slot_kept [Div S] [OfScientific S] (t : TypeTag)
    (fsys : FluidSystem S) (e : ElementContext S) (m m1 : EclOutputBlackOilModule S)
    (hE : t.discretizationIsEcfv = true) (h1 : processElement t fsys e m = some m1)
    (j : BufId) (hj : enabled t j = true) (fv : Nat → S)
    (hF : ∀ d, d < e.numPrimaryDof 0 →
      dofValue fsys e d j = fv (e.globalSpaceIndex d 0).toNat)
    (k : Nat) (hk : k < (m.buf j).length)
    (h : (m.buf j)[k]? = some (fv k) ∨
      ∃ d, d < e.numPrimaryDof 0 ∧ e.globalSpaceIndex d 0 = (k : Int)) :
    (m1.buf j)[k]? = some (fv k) := by
  rw [processElement_getElem? t fsys e m m1 hE h1 j hj k]
  cases hl : lastStore (fun dofIdx => (e.globalSpaceIndex dofIdx 0).toNat)
      (fun dofIdx => dofValue fsys e dofIdx j) k (List.range (e.numPrimaryDof 0)) with
  | some x =>
    obtain ⟨d, hd, hkd, hv⟩ := lastStore_eq_some _ _ _ _ _ hl
    have hkd' : (e.globalSpaceIndex d 0).toNat = k := hkd
    have hv' : dofValue fsys e d j = x := hv
    rw [hF d (List.mem_range.mp hd), hkd'] at hv'
    simp [hk, hv']
  | none =>
    rcases h with h | ⟨d, hd, hg⟩
    · exact h
    · exfalso
      have hne := lastStore_none_imp _ _ _ _ hl d (List.mem_range.mpr hd)
      have hne' : (e.globalSpaceIndex d 0).toNat ≠ k := hne
      omega

theorem runOperations_processElements [Zero S] [Div S] [OfScientific S] (t : TypeTag)
    (fsys : FluidSystem S) (hE : t.discretizationIsEcfv = true) (n : Nat)
    (elems : List (ElementContext S)) (m : EclOutputBlackOilModule S)
    (hlen : ∀ i, enabled t i = true → (m.buf i).length = n)
    (hR : ∀ e ∈ elems, ∀ d, d < e.numPrimaryDof 0 →
      0 ≤ e.globalSpaceIndex d 0 ∧ e.globalSpaceIndex d 0 < n) :
    ∃ m', runOperations t fsys (elems.map Operation.processElement) m = some m' ∧
      (∀ i, (m'.buf i).length = (m.buf i).length) ∧
      ∀ j, enabled t j = true → ∀ fv : Nat → S,
        (∀ e ∈ elems, ∀ d, d < e.numPrimaryDof 0 →
          dofValue fsys e d j = fv (e.globalSpaceIndex d 0).toNat) →
        ∀ k, k < n →
          ((m.buf j)[k]? = some (fv k) ∨
            ∃ e ∈ elems, ∃ d, d < e.numPrimaryDof 0 ∧ e.globalSpaceIndex d 0 = (k : Int)) →
          (m'.buf j)[k]? = some (fv k) := by
  induction elems generalizing m with
  | nil =>
    refine ⟨m, rfl, fun _ => rfl, ?_⟩
    intro j _ fv _ k _ h
    rcases h with h | ⟨e, he, _⟩
    · exact h
    · exact absurd he (List.not_mem_nil e)
  | cons e rest ih =>
    have hfit : ∀ d, d < e.numPrimaryDof 0 → DofFits t m (e.globalSpaceIndex d 0) := by
      intro d hd i hi
      have hr := hR e (List.mem_cons_self _ _) d hd
      exact ⟨hr.1, by rw [hlen i hi]; exact hr.2⟩
    have h1 := processElement_some t fsys e m hE hfit
    have hlen1 := processElement_length t fsys e m _ h1
    obtain ⟨m', hm', hl', hs'⟩ := ih _
      (fun i hi => by rw [hlen1 i, hlen i hi])
      (fun e' he' => hR e' (List.mem_cons_of_mem _ he'))
    refine ⟨m', ?_, fun i => by rw [hl' i, hlen1 i], ?_⟩
    · rw [List.map_cons, runOperations]
      simp only [runOperation, h1, Option.some_bind]
      exact hm'
    · intro j hj fv hF k hk h
      apply hs' j hj fv (fun e' he' => hF e' (List.mem_cons_of_mem _ he')) k hk
      rcases h with h | ⟨e', he', d, hd, hg⟩
      · left
        exact processElement_slot_kept t fsys e m _ hE h1 j hj fv
          (hF e (List.mem_cons_self _ _)) k (by rw [hlen j hj]; exact hk) (Or.inl h)
      · rcases List.mem_cons.mp he' with rfl | hrest
        · left
          exact processElement_slot_kept t fsys e' m _ hE h1 j hj fv
            (hF e' (List.mem_cons_self _ _)) k (by rw [hlen j hj]; exact hk)
            (Or.inr ⟨d, hd, hg⟩)
        · right
          exact ⟨e', hrest, d, hd, hg⟩

theorem eq_map_range_of_getElem? (b : ScalarBuffer S) (n : Nat) (f : Nat → S)
    (hlen : b.length = n) (h : ∀ k, k < n → b[k]? = some (f k)) :
    b = (List.range n).map f := by
  apply List.ext_getElem?
  intro k
  by_cases hk : k < n
  · rw [h k hk]
    simp [List.getElem?_range hk]
  · have h1 : b[k]? = none := by
      apply List.getElem?_eq_none
      omega
    have h2 : ((List.range n).map f)[k]? = none := by
      apply List.getElem?_eq_none
      simp
      omega
    rw [h1, h2]

end Lemmas

section Claims

variable {S : Type}

/-- C1, counterexample: with only the pressures written and one slot allocated, an
element whose two primary degrees of freedom both map to global index 0 leaves in the
buffers committed as PRESSURE, PGAS and PWAT the value of the second one, 200000 / 1e5 = 2,
and not 100000 / 1e5 = 1, the oil pressure of the first one in bar. -/
theorem pressure_round_trip_counterexample :
    0 < twoDofElement.numPrimaryDof 0 ∧
    twoDofElement.globalSpaceIndex 0 0 = 0 ∧
    (twoDofElement.fluidState 0 0).pressure fluidSystemQ.oilPhaseIdx / 1e5 = 1 ∧
    (processElement tagPressures fluidSystemQ twoDofElement
        (allocBuffers tagPressures 1 EclOutputBlackOilModule.construct)).map
      (fun m => (commitBuffers tagPressures fluidSystemQ m eclWriter).2.attached.map
        fun a => (a.name, a.buffer)) =
      some [("PRESSURE", [2]), ("PGAS", [2]), ("PWAT", [2])] := by
  refine ⟨by decide, rfl, by norm_num [twoDofElement, uniformState], ?_⟩
  rw [processElement_some tagPressures fluidSystemQ twoDofElement _ rfl
    (fun d _ => dofFits_allocBuffers tagPressures 1 _ rfl 0 (le_refl _) (by decide))]
  rw [Option.map_some', commitBuffers_eq _ _ _ _ rfl rfl]
  have hE : tagPressures.discretizationIsEcfv = true := rfl
  simp [commitCalls, eclWriter, EclOutputBlackOilModule.ofBuf,
    enabled, replayDofs, replay, List.range, List.range.loop, dofValue, twoDofElement,
    uniformState, allocBuffers_pressure_ _ _ _ hE, EclOutputBlackOilModule.buf,
    show pressuresOutput_ tagPressures = true from rfl,
    show saturationsOutput_ tagPressures = false from rfl,
    show gasDissolutionFactorOutput_ tagPressures = false from rfl,
    show gasFormationVolumeFactorOutput_ tagPressures = false from rfl,
    show saturatedOilFormationVolumeFactorOutput_ tagPressures = false from rfl,
    show oilSaturationPressureOutput_ tagPressures = false from rfl]
  norm_num

/-- C1, amended: under the cell-centered discretization with the pressures written, after
`allocBuffers` with `n` slots, `processElement` on an element all of whose primary degrees
of freedom have a global index in `[0, n)` returns, and `commitBuffers` to an ECL writer
then hands over, first, the buffers named PRESSURE, PGAS and PWAT; for a primary degree of
freedom `d` with global index `g` such that no later one of the element maps to `g`, they
hold at slot `g` the oil, gas and water pressure of `d` divided by `1e5`. -/
theorem pressure_round_trip [Zero S] [Div S] [OfScientific S] (t : TypeTag)
    (fsys : FluidSystem S) (elemCtx : ElementContext S) (n : Nat)
    (m : EclOutputBlackOilModule S) (w : BaseOutputWriter S) (d : Nat)
    (hE : t.discretizationIsEcfv = true) (hP : pressuresOutput_ t = true)
    (hW : w.isEclWriter = true)
    (hR : ∀ d', d' < elemCtx.numPrimaryDof 0 →
      0 ≤ elemCtx.globalSpaceIndex d' 0 ∧ elemCtx.globalSpaceIndex d' 0 < n)
    (hd : d < elemCtx.numPrimaryDof 0)
    (hlast : ∀ d', d < d' → d' < elemCtx.numPrimaryDof 0 →
      elemCtx.globalSpaceIndex d' 0 ≠ elemCtx.globalSpaceIndex d 0) :
    ∃ m' rest, processElement t fsys elemCtx (allocBuffers t n m) = some m' ∧
      (commitBuffers t fsys m' w).2.attached =
        w.attached ++
          (⟨"PRESSURE", m'.pressure_ fsys.oilPhaseIdx, some .ElementBuffer⟩ ::
           ⟨"PGAS", m'.pressure_ fsys.gasPhaseIdx, some .ElementBuffer⟩ ::
           ⟨"PWAT", m'.pressure_ fsys.waterPhaseIdx, some .ElementBuffer⟩ :: rest) ∧
      (m'.pressure_ fsys.oilPhaseIdx)[(elemCtx.globalSpaceIndex d 0).toNat]? =
        some ((elemCtx.fluidState d 0).pressure fsys.oilPhaseIdx / 1e5) ∧
      (m'.pressure_ fsys.gasPhaseIdx)[(elemCtx.globalSpaceIndex d 0).toNat]? =
        some ((elemCtx.fluidState d 0).pressure fsys.gasPhaseIdx / 1e5) ∧
      (m'.pressure_ fsys.waterPhaseIdx)[(elemCtx.globalSpaceIndex d 0).toNat]? =
        some ((elemCtx.fluidState d 0).pressure fsys.waterPhaseIdx / 1e5) := by
  have hfit : ∀ d', d' < elemCtx.numPrimaryDof 0 →
      DofFits t (allocBuffers t n m) (elemCtx.globalSpaceIndex d' 0) :=
    fun d' hd' => dofFits_allocBuffers t n m hE _ (hR d' hd').1 (hR d' hd').2
  have hslot : ∀ p : Fin numPhases,
      (replayDofs fsys elemCtx (List.range (elemCtx.numPrimaryDof 0)) (.pressure p)
        ((allocBuffers t n m).buf (.pressure p)))[(elemCtx.globalSpaceIndex d 0).toNat]? =
      some ((elemCtx.fluidState d 0).pressure p / 1e5) := by
    intro p
    apply getElem?_replayDofs_range fsys elemCtx _ d (.pressure p) _ hd
      (fun d' hd' => (hR d' hd').1) hlast
    rw [allocBuffers_buf t n m hE]
    simpa [enabled, hP] using (hR d hd).2
  refine ⟨_, (commitCalls t fsys (EclOutputBlackOilModule.ofBuf fun j =>
      if enabled t j = true then
        replayDofs fsys elemCtx (List.range (elemCtx.numPrimaryDof 0)) j
          ((allocBuffers t n m).buf j)
      else (allocBuffers t n m).buf j)).drop 3,
    processElement_some t fsys elemCtx _ hE hfit, ?_, ?_, ?_, ?_⟩
  · rw [commitBuffers_eq t fsys _ w hE hW]
    simp [commitCalls, hP]
  · simpa [EclOutputBlackOilModule.ofBuf, enabled, hP] using hslot fsys.oilPhaseIdx
  · simpa [EclOutputBlackOilModule.ofBuf, enabled, hP] using hslot fsys.gasPhaseIdx
  · simpa [EclOutputBlackOilModule.ofBuf, enabled, hP] using hslot fsys.waterPhaseIdx

/-- C1, witness: the amended claim at the element with two degrees of freedom on global
index 0, for the second (last) of them, with one slot allocated and all groups written. -/
theorem pressure_round_trip_witness :
    ∃ m' rest, processElement tagAll fluidSystemQ twoDofElement
        (allocBuffers tagAll 1 EclOutputBlackOilModule.construct) = some m' ∧
      (commitBuffers tagAll fluidSystemQ m' eclWriter).2.attached =
        eclWriter.attached ++
          (⟨"PRESSURE", m'.pressure_ fluidSystemQ.oilPhaseIdx, some .ElementBuffer⟩ ::
           ⟨"PGAS", m'.pressure_ fluidSystemQ.gasPhaseIdx, some .ElementBuffer⟩ ::
           ⟨"PWAT", m'.pressure_ fluidSystemQ.waterPhaseIdx, some .ElementBuffer⟩ :: rest) ∧
      (m'.pressure_ fluidSystemQ.oilPhaseIdx)[(twoDofElement.globalSpaceIndex 1 0).toNat]? =
        some ((twoDofElement.fluidState 1 0).pressure fluidSystemQ.oilPhaseIdx / 1e5) ∧
      (m'.pressure_ fluidSystemQ.gasPhaseIdx)[(twoDofElement.globalSpaceIndex 1 0).toNat]? =
        some ((twoDofElement.fluidState 1 0).pressure fluidSystemQ.gasPhaseIdx / 1e5) ∧
      (m'.pressure_ fluidSystemQ.waterPhaseIdx)[(twoDofElement.globalSpaceIndex 1 0).toNat]? =
        some ((twoDofElement.fluidState 1 0).pressure fluidSystemQ.waterPhaseIdx / 1e5) :=
  pressure_round_trip tagAll fluidSystemQ twoDofElement 1 EclOutputBlackOilModule.construct
    eclWriter 1 rfl rfl rfl
    (fun _ _ => ⟨le_refl (0 : Int), show (0 : Int) < ((1 : Nat) : Int) by decide⟩) (by decide)
    (fun d' h1 h2 => absurd h2 (by
      have : twoDofElement.numPrimaryDof 0 = 2 := rfl
      omega))

/-- C2: under the cell-centered discretization and with an ECL writer, `commitBuffers`
appends to the writer exactly the (name, buffer) pairs of the enabled groups, in this order:
PRESSURE, PGAS, PWAT (oil, gas, water pressure); SWAT, SGAS (water, gas saturation); RS; BG;
BOSAT; PSAT. A name is among the appended ones if and only if the flag of its group is set. -/
theorem commitBuffers_named_buffers (t : TypeTag) (fsys : FluidSystem S)
    (m : EclOutputBlackOilModule S) (w : BaseOutputWriter S)
    (hE : t.discretizationIsEcfv = true) (hW : w.isEclWriter = true) :
    ∃ new, (commitBuffers t fsys m w).2.attached = w.attached ++ new ∧
      new.map (fun a => (a.name, a.buffer)) =
        (if pressuresOutput_ t = true then
          [("PRESSURE", m.pressure_ fsys.oilPhaseIdx), ("PGAS", m.pressure_ fsys.gasPhaseIdx),
           ("PWAT", m.pressure_ fsys.waterPhaseIdx)] else []) ++
        ((if saturationsOutput_ t = true then
          [("SWAT", m.saturation_ fsys.waterPhaseIdx),
           ("SGAS", m.saturation_ fsys.gasPhaseIdx)] else []) ++
        ((if gasDissolutionFactorOutput_ t = true then
          [("RS", m.gasDissolutionFactor_)] else []) ++
        ((if gasFormationVolumeFactorOutput_ t = true then
          [("BG", m.gasFormationVolumeFactor_)] else []) ++
        ((if saturatedOilFormationVolumeFactorOutput_ t = true then
          [("BOSAT", m.saturatedOilFormationVolumeFactor_)] else []) ++
        (if oilSaturationPressureOutput_ t = true then
          [("PSAT", m.oilSaturationPressure_)] else []))))) ∧
      ∀ name : String, name ∈ new.map (fun a => a.name) ↔
        (pressuresOutput_ t = true ∧ (name = "PRESSURE" ∨ name = "PGAS" ∨ name = "PWAT")) ∨
        (saturationsOutput_ t = true ∧ (name = "SWAT" ∨ name = "SGAS")) ∨
        (gasDissolutionFactorOutput_ t = true ∧ name = "RS") ∨
        (gasFormationVolumeFactorOutput_ t = true ∧ name = "BG") ∨
        (saturatedOilFormationVolumeFactorOutput_ t = true ∧ name = "BOSAT") ∨
        (oilSaturationPressureOutput_ t = true ∧ name = "PSAT") := by
  refine ⟨commitCalls t fsys m, ?_, ?_, ?_⟩
  · rw [commitBuffers_eq t fsys m w hE hW]
  · unfold commitCalls
    cases saturationsOutput_ t <;> cases pressuresOutput_ t <;>
      cases gasDissolutionFactorOutput_ t <;> cases gasFormationVolumeFactorOutput_ t <;>
      cases saturatedOilFormationVolumeFactorOutput_ t <;>
      cases oilSaturationPressureOutput_ t <;> rfl
  · intro name
    unfold commitCalls
    cases saturationsOutput_ t <;> cases pressuresOutput_ t <;>
      cases gasDissolutionFactorOutput_ t <;> cases gasFormationVolumeFactorOutput_ t <;>
      cases saturatedOilFormationVolumeFactorOutput_ t <;>
      cases oilSaturationPressureOutput_ t <;> simp [or_assoc]

/-- C2, witness: all groups written, one element processed, an ECL writer. -/
theorem commitBuffers_named_buffers_witness :
    ∃ new, (commitBuffers tagAll fluidSystemQ
        (allocBuffers tagAll 1 EclOutputBlackOilModule.construct) eclWriter).2.attached =
          eclWriter.attached ++ new ∧
      new.map (fun a => a.name) =
        ["PRESSURE", "PGAS", "PWAT", "SWAT", "SGAS", "RS", "BG", "BOSAT", "PSAT"] := by
  obtain ⟨new, h1, h2, _⟩ := commitBuffers_named_buffers tagAll fluidSystemQ
    (allocBuffers tagAll 1 EclOutputBlackOilModule.construct) eclWriter rfl rfl
  refine ⟨new, h1, ?_⟩
  have h3 := congrArg (List.map Prod.fst) h2
  simpa [List.map_map, Function.comp_def,
    show pressuresOutput_ tagAll = true from rfl,
    show saturationsOutput_ tagAll = true from rfl,
    show gasDissolutionFactorOutput_ tagAll = true from rfl,
    show gasFormationVolumeFactorOutput_ tagAll = true from rfl,
    show saturatedOilFormationVolumeFactorOutput_ tagAll = true from rfl,
    show oilSaturationPressureOutput_ tagAll = true from rfl] using h3

/-- C3: under the cell-centered discretization, `allocBuffers` with `n` slots on a freshly
constructed module leaves every saturation buffer with length `n` if the saturations are
written and `0` otherwise, every pressure buffer with length `n` if the pressures are
written and `0` otherwise, and each of the four PVT buffers with length `n` if its own
flag is set and `0` otherwise. -/
theorem allocBuffers_lengths [Zero S] (t : TypeTag) (n : Nat)
    (hE : t.discretizationIsEcfv = true) :
    (∀ p, ((allocBuffers t n (EclOutputBlackOilModule.construct : EclOutputBlackOilModule S)
        ).saturation_ p).length = if saturationsOutput_ t = true then n else 0) ∧
    (∀ p, ((allocBuffers t n (EclOutputBlackOilModule.construct : EclOutputBlackOilModule S)
        ).pressure_ p).length = if pressuresOutput_ t = true then n else 0) ∧
    ((allocBuffers t n (EclOutputBlackOilModule.construct : EclOutputBlackOilModule S)
        ).gasDissolutionFactor_).length =
      (if gasDissolutionFactorOutput_ t = true then n else 0) ∧
    ((allocBuffers t n (EclOutputBlackOilModule.construct : EclOutputBlackOilModule S)
        ).gasFormationVolumeFactor_).length =
      (if gasFormationVolumeFactorOutput_ t = true then n else 0) ∧
    ((allocBuffers t n (EclOutputBlackOilModule.construct : EclOutputBlackOilModule S)
        ).saturatedOilFormationVolumeFactor_).length =
      (if saturatedOilFormationVolumeFactorOutput_ t = true then n else 0) ∧
    ((allocBuffers t n (EclOutputBlackOilModule.construct : EclOutputBlackOilModule S)
        ).oilSaturationPressure_).length =
      (if oilSaturationPressureOutput_ t = true then n else 0) := by
  refine ⟨fun p => ?_, fun p => ?_, ?_, ?_, ?_, ?_⟩
  · rw [allocBuffers_saturation_ t n _ hE]
    split_ifs <;> simp [EclOutputBlackOilModule.construct]
  · rw [allocBuffers_pressure_ t n _ hE]
    split_ifs <;> simp [EclOutputBlackOilModule.construct]
  · rw [allocBuffers_gasDissolutionFactor_ t n _ hE]
    split_ifs <;> simp [EclOutputBlackOilModule.construct]
  · rw [allocBuffers_gasFormationVolumeFactor_ t n _ hE]
    split_ifs <;> simp [EclOutputBlackOilModule.construct]
  · rw [allocBuffers_saturatedOilFormationVolumeFactor_ t n _ hE]
    split_ifs <;> simp [EclOutputBlackOilModule.construct]
  · rw [allocBuffers_oilSaturationPressure_ t n _ hE]
    split_ifs <;> simp [EclOutputBlackOilModule.construct]

/-- C3, witness: all groups written, two slots. -/
theorem allocBuffers_lengths_witness :
    (∀ p, ((allocBuffers tagAll 2 (EclOutputBlackOilModule.construct : EclOutputBlackOilModule ℚ)
        ).saturation_ p).length = if saturationsOutput_ tagAll = true then 2 else 0) ∧
    (∀ p, ((allocBuffers tagAll 2 (EclOutputBlackOilModule.construct : EclOutputBlackOilModule ℚ)
        ).pressure_ p).length = if pressuresOutput_ tagAll = true then 2 else 0) ∧
    ((allocBuffers tagAll 2 (EclOutputBlackOilModule.construct : EclOutputBlackOilModule ℚ)
        ).gasDissolutionFactor_).length =
      (if gasDissolutionFactorOutput_ tagAll = true then 2 else 0) ∧
    ((allocBuffers tagAll 2 (EclOutputBlackOilModule.construct : EclOutputBlackOilModule ℚ)
        ).gasFormationVolumeFactor_).length =
      (if gasFormationVolumeFactorOutput_ tagAll = true then 2 else 0) ∧
    ((allocBuffers tagAll 2 (EclOutputBlackOilModule.construct : EclOutputBlackOilModule ℚ)
        ).saturatedOilFormationVolumeFactor_).length =
      (if saturatedOilFormationVolumeFactorOutput_ tagAll = true then 2 else 0) ∧
    ((allocBuffers tagAll 2 (EclOutputBlackOilModule.construct : EclOutputBlackOilModule ℚ)
        ).oilSaturationPressure_).length =
      (if oilSaturationPressureOutput_ tagAll = true then 2 else 0) :=
  allocBuffers_lengths tagAll 2 rfl

/-- C4, counterexample: with all groups written and one slot allocated, the element whose
two primary degrees of freedom both map to global index 0 leaves in the four PVT buffers
the values of the second one (oil pressure 200000, mass fraction 1 / 5), not those the
evaluators give for the first one (oil pressure 100000, mass fraction 1 / 4). -/
theorem pvt_stores_counterexample :
    0 < twoDofElement.numPrimaryDof 0 ∧
    twoDofElement.globalSpaceIndex 0 0 = 0 ∧
    fluidSystemQ.gasDissolutionFactor
      ((twoDofElement.fluidState 0 0).pressure fluidSystemQ.oilPhaseIdx)
      (twoDofElement.pvtRegionIndex 0 0) = 100000 ∧
    fluidSystemQ.gasFormationVolumeFactor
      ((twoDofElement.fluidState 0 0).pressure fluidSystemQ.oilPhaseIdx)
      (twoDofElement.pvtRegionIndex 0 0) = 200000 ∧
    fluidSystemQ.saturatedOilFormationVolumeFactor
      ((twoDofElement.fluidState 0 0).pressure fluidSystemQ.oilPhaseIdx)
      (twoDofElement.pvtRegionIndex 0 0) = 300000 ∧
    fluidSystemQ.oilSaturationPressure
      ((twoDofElement.fluidState 0 0).massFraction fluidSystemQ.oilPhaseIdx
        fluidSystemQ.gasCompIdx)
      (twoDofElement.pvtRegionIndex 0 0) = 1 ∧
    (processElement tagAll fluidSystemQ twoDofElement
        (allocBuffers tagAll 1 EclOutputBlackOilModule.construct)).map
      (fun m => (m.gasDissolutionFactor_, m.gasFormationVolumeFactor_,
        m.saturatedOilFormationVolumeFactor_, m.oilSaturationPressure_)) =
      some ([200000], [400000], [600000], [4 / 5]) := by
  refine ⟨by decide, rfl, by norm_num [twoDofElement, uniformState, fluidSystemQ],
    by norm_num [twoDofElement, uniformState, fluidSystemQ],
    by norm_num [twoDofElement, uniformState, fluidSystemQ],
    by norm_num [twoDofElement, uniformState, fluidSystemQ], ?_⟩
  rw [processElement_some tagAll fluidSystemQ twoDofElement _ rfl
    (fun d _ => dofFits_allocBuffers tagAll 1 _ rfl 0 (le_refl _) (by decide))]
  have hE : tagAll.discretizationIsEcfv = true := rfl
  simp [EclOutputBlackOilModule.ofBuf,
    enabled, replayDofs, replay, List.range, List.range.loop, dofValue, twoDofElement,
    uniformState, fluidSystemQ, EclOutputBlackOilModule.buf,
    allocBuffers_gasDissolutionFactor_ _ _ _ hE,
    allocBuffers_gasFormationVolumeFactor_ _ _ _ hE,
    allocBuffers_saturatedOilFormationVolumeFactor_ _ _ _ hE,
    allocBuffers_oilSaturationPressure_ _ _ _ hE,
    show gasDissolutionFactorOutput_ tagAll = true from rfl,
    show gasFormationVolumeFactorOutput_ tagAll = true from rfl,
    show saturatedOilFormationVolumeFactorOutput_ tagAll = true from rfl,
    show oilSaturationPressureOutput_ tagAll = true from rfl]
  norm_num

/-- C4, amended: in a state the module can be in, `processElement` on an element all of
whose stores are inside their buffers returns, and for a primary degree of freedom `d` with
global index `g` such that no later one of the element maps to `g`: if the gas-dissolution
flag is set, slot `g` of `gasDissolutionFactor_` holds `gasDissolutionFactor(po, r)`; if the
gas-FVF flag is set, slot `g` of `gasFormationVolumeFactor_` holds
`gasFormationVolumeFactor(po, r)`; if the oil-FVF flag is set, slot `g` of
`saturatedOilFormationVolumeFactor_` holds `saturatedOilFormationVolumeFactor(po, r)`; if
the oil-saturation-pressure flag is set, slot `g` of `oilSaturationPressure_` holds
`oilSaturationPressure(XoG, r)`; with `po` the oil pressure of `d` (not divided by `1e5`),
`XoG` its mass fraction of the gas component in oil, and `r` its PVT region. -/
theorem pvt_stores [Zero S] [Div S] [OfScientific S] (t : TypeTag)
    (fsys : FluidSystem S) (elemCtx : ElementContext S) (m : EclOutputBlackOilModule S)
    (d : Nat) (hm : Reachable t fsys m)
    (hR : ∀ d', d' < elemCtx.numPrimaryDof 0 → DofFits t m (elemCtx.globalSpaceIndex d' 0))
    (hd : d < elemCtx.numPrimaryDof 0)
    (hlast : ∀ d', d < d' → d' < elemCtx.numPrimaryDof 0 →
      elemCtx.globalSpaceIndex d' 0 ≠ elemCtx.globalSpaceIndex d 0) :
    ∃ m', processElement t fsys elemCtx m = some m' ∧
      (gasDissolutionFactorOutput_ t = true →
        m'.gasDissolutionFactor_[(elemCtx.globalSpaceIndex d 0).toNat]? =
          some (fsys.gasDissolutionFactor
            ((elemCtx.fluidState d 0).pressure fsys.oilPhaseIdx)
            (elemCtx.pvtRegionIndex d 0))) ∧
      (gasFormationVolumeFactorOutput_ t = true →
        m'.gasFormationVolumeFactor_[(elemCtx.globalSpaceIndex d 0).toNat]? =
          some (fsys.gasFormationVolumeFactor
            ((elemCtx.fluidState d 0).pressure fsys.oilPhaseIdx)
            (elemCtx.pvtRegionIndex d 0))) ∧
      (saturatedOilFormationVolumeFactorOutput_ t = true →
        m'.saturatedOilFormationVolumeFactor_[(elemCtx.globalSpaceIndex d 0).toNat]? =
          some (fsys.saturatedOilFormationVolumeFactor
            ((elemCtx.fluidState d 0).pressure fsys.oilPhaseIdx)
            (elemCtx.pvtRegionIndex d 0))) ∧
      (oilSaturationPressureOutput_ t = true →
        m'.oilSaturationPressure_[(elemCtx.globalSpaceIndex d 0).toNat]? =
          some (fsys.oilSaturationPressure
            ((elemCtx.fluidState d 0).massFraction fsys.oilPhaseIdx fsys.gasCompIdx)
            (elemCtx.pvtRegionIndex d 0))) := by
  obtain ⟨m', hm', hslot⟩ := processElement_slot t fsys elemCtx m d hm hR hd hlast
  exact ⟨m', hm', fun h => hslot .gasDissolutionFactor h,
    fun h => hslot .gasFormationVolumeFactor h,
    fun h => hslot .saturatedOilFormationVolumeFactor h,
    fun h => hslot .oilSaturationPressure h⟩

/-- C4, witness: the amended claim at the element with two degrees of freedom on global
index 0, for the second (last) of them, in the state after `allocBuffers` with one slot. -/
theorem pvt_stores_witness :
    ∃ m', processElement tagAll fluidSystemQ twoDofElement
        (allocBuffers tagAll 1 EclOutputBlackOilModule.construct) = some m' ∧
      (gasDissolutionFactorOutput_ tagAll = true →
        m'.gasDissolutionFactor_[(twoDofElement.globalSpaceIndex 1 0).toNat]? =
          some (fluidSystemQ.gasDissolutionFactor
            ((twoDofElement.fluidState 1 0).pressure fluidSystemQ.oilPhaseIdx)
            (twoDofElement.pvtRegionIndex 1 0))) ∧
      (gasFormationVolumeFactorOutput_ tagAll = true →
        m'.gasFormationVolumeFactor_[(twoDofElement.globalSpaceIndex 1 0).toNat]? =
          some (fluidSystemQ.gasFormationVolumeFactor
            ((twoDofElement.fluidState 1 0).pressure fluidSystemQ.oilPhaseIdx)
            (twoDofElement.pvtRegionIndex 1 0))) ∧
      (saturatedOilFormationVolumeFactorOutput_ tagAll = true →
        m'.saturatedOilFormationVolumeFactor_[(twoDofElement.globalSpaceIndex 1 0).toNat]? =
          some (fluidSystemQ.saturatedOilFormationVolumeFactor
            ((twoDofElement.fluidState 1 0).pressure fluidSystemQ.oilPhaseIdx)
            (twoDofElement.pvtRegionIndex 1 0))) ∧
      (oilSaturationPressureOutput_ tagAll = true →
        m'.oilSaturationPressure_[(twoDofElement.globalSpaceIndex 1 0).toNat]? =
          some (fluidSystemQ.oilSaturationPressure
            ((twoDofElement.fluidState 1 0).massFraction fluidSystemQ.oilPhaseIdx
              fluidSystemQ.gasCompIdx)
            (twoDofElement.pvtRegionIndex 1 0))) :=
  pvt_stores tagAll fluidSystemQ twoDofElement
    (allocBuffers tagAll 1 EclOutputBlackOilModule.construct) 1
    ⟨[.allocBuffers 1], rfl⟩
    (fun _ _ => dofFits_allocBuffers tagAll 1 _ rfl 0 (le_refl _)
      (show (0 : Int) < ((1 : Nat) : Int) by decide))
    (by decide)
    (fun d' h1 h2 => absurd h2 (by
      have : twoDofElement.numPrimaryDof 0 = 2 := rfl
      omega))

/-- C5: in a state the module can be in, with the saturations written, `processElement`
on an element all of whose stores are inside their buffers returns, and for a primary
degree of freedom `d` with global index `g` such that no later one of the element maps to
`g`, slot `g` of `saturation_[p]` holds the saturation of phase `p` at `d`, unscaled, for
every phase `p`. -/
theorem saturation_stored [Zero S] [Div S] [OfScientific S] (t : TypeTag)
    (fsys : FluidSystem S) (elemCtx : ElementContext S) (m : EclOutputBlackOilModule S)
    (d : Nat) (hm : Reachable t fsys m)
    (hR : ∀ d', d' < elemCtx.numPrimaryDof 0 → DofFits t m (elemCtx.globalSpaceIndex d' 0))
    (hd : d < elemCtx.numPrimaryDof 0)
    (hS : saturationsOutput_ t = true)
    (hlast : ∀ d', d < d' → d' < elemCtx.numPrimaryDof 0 →
      elemCtx.globalSpaceIndex d' 0 ≠ elemCtx.globalSpaceIndex d 0) :
    ∃ m', processElement t fsys elemCtx m = some m' ∧
      ∀ p : Fin numPhases,
        (m'.saturation_ p)[(elemCtx.globalSpaceIndex d 0).toNat]? =
          some ((elemCtx.fluidState d 0).saturation p) := by
  obtain ⟨m', hm', hslot⟩ := processElement_slot t fsys elemCtx m d hm hR hd hlast
  exact ⟨m', hm', fun p => hslot (.saturation p) hS⟩

/-- C5, witness: the element with two degrees of freedom on global index 0, for the second
(last) of them, in the state after `allocBuffers` with one slot. -/
theorem saturation_stored_witness :
    ∃ m', processElement tagAll fluidSystemQ twoDofElement
        (allocBuffers tagAll 1 EclOutputBlackOilModule.construct) = some m' ∧
      ∀ p : Fin numPhases,
        (m'.saturation_ p)[(twoDofElement.globalSpaceIndex 1 0).toNat]? =
          some ((twoDofElement.fluidState 1 0).saturation p) :=
  saturation_stored tagAll fluidSystemQ twoDofElement
    (allocBuffers tagAll 1 EclOutputBlackOilModule.construct) 1
    ⟨[.allocBuffers 1], rfl⟩
    (fun _ _ => dofFits_allocBuffers tagAll 1 _ rfl 0 (le_refl _)
      (show (0 : Int) < ((1 : Nat) : Int) by decide))
    (by decide) rfl
    (fun d' h1 h2 => absurd h2 (by
      have : twoDofElement.numPrimaryDof 0 = 2 := rfl
      omega))

/-- C6: for every configuration, module state and writer, every entry `commitBuffers` hands
to the writer is one of the nine pairs PRESSURE/PGAS/PWAT (oil, gas, water pressure),
SWAT/SGAS (water, gas saturation), RS, BG, BOSAT, PSAT, so every emitted name is one of these
nine; and, the oil phase being distinct from the water and the gas phase, what the writer
receives does not depend on the oil saturation buffer. -/
theorem oil_saturation_never_committed (t : TypeTag) (fsys : FluidSystem S)
    (m : EclOutputBlackOilModule S) (w : BaseOutputWriter S) :
    ∃ new, (commitBuffers t fsys m w).2.attached = w.attached ++ new ∧
      (∀ a ∈ new, a.name ∈
        ["PRESSURE", "PGAS", "PWAT", "SWAT", "SGAS", "RS", "BG", "BOSAT", "PSAT"]) ∧
      (∀ a ∈ new, (a.name, a.buffer) ∈
        [("PRESSURE", m.pressure_ fsys.oilPhaseIdx), ("PGAS", m.pressure_ fsys.gasPhaseIdx),
         ("PWAT", m.pressure_ fsys.waterPhaseIdx),
         ("SWAT", m.saturation_ fsys.waterPhaseIdx), ("SGAS", m.saturation_ fsys.gasPhaseIdx),
         ("RS", m.gasDissolutionFactor_), ("BG", m.gasFormationVolumeFactor_),
         ("BOSAT", m.saturatedOilFormationVolumeFactor_),
         ("PSAT", m.oilSaturationPressure_)]) ∧
      (fsys.oilPhaseIdx ≠ fsys.waterPhaseIdx → fsys.oilPhaseIdx ≠ fsys.gasPhaseIdx →
        ∀ b : ScalarBuffer S,
          (commitBuffers t fsys
            { m with saturation_ := Function.update m.saturation_ fsys.oilPhaseIdx b } w).2 =
          (commitBuffers t fsys m w).2) := by
  cases hE : t.discretizationIsEcfv with
  | false =>
    refine ⟨[], ?_, ?_, ?_, ?_⟩
    · rw [commitBuffers_not_ecfv t fsys m w hE, List.append_nil]
    · intro a ha
      exact absurd ha (List.not_mem_nil a)
    · intro a ha
      exact absurd ha (List.not_mem_nil a)
    · intro _ _ b
      rw [commitBuffers_not_ecfv t fsys _ w hE, commitBuffers_not_ecfv t fsys m w hE]
  | true =>
    cases hW : w.isEclWriter with
    | false =>
      refine ⟨[], ?_, ?_, ?_, ?_⟩
      · rw [commitBuffers_not_ecl t fsys m w hW, List.append_nil]
      · intro a ha
        exact absurd ha (List.not_mem_nil a)
      · intro a ha
        exact absurd ha (List.not_mem_nil a)
      · intro _ _ b
        rw [commitBuffers_not_ecl t fsys _ w hW, commitBuffers_not_ecl t fsys m w hW]
    | true =>
      refine ⟨commitCalls t fsys m, ?_, ?_, ?_, ?_⟩
      · rw [commitBuffers_eq t fsys m w hE hW]
      · intro a ha
        unfold commitCalls at ha
        simp only [List.mem_append] at ha
        rcases ha with ha | ha | ha | ha | ha | ha <;> split_ifs at ha <;>
          simp only [List.mem_cons, List.mem_singleton, List.not_mem_nil, or_false] at ha <;>
          rcases ha with rfl | rfl | rfl <;> simp
      · intro a ha
        unfold commitCalls at ha
        simp only [List.mem_append] at ha
        rcases ha with ha | ha | ha | ha | ha | ha <;> split_ifs at ha <;>
          simp only [List.mem_cons, List.mem_singleton, List.not_mem_nil, or_false] at ha <;>
          rcases ha with rfl | rfl | rfl <;> simp
      · intro how hog b
        rw [commitBuffers_eq t fsys _ w hE hW, commitBuffers_eq t fsys m w hE hW]
        simp only [commitCalls, Function.update_noteq (Ne.symm how),
          Function.update_noteq (Ne.symm hog)]

/-- C6, witness: with water 0, oil 1, gas 2 and all groups written, replacing the oil
saturation buffer by another one changes nothing of what the ECL writer receives. -/
theorem oil_saturation_never_committed_witness :
    fluidSystemQ.oilPhaseIdx ≠ fluidSystemQ.waterPhaseIdx ∧
    fluidSystemQ.oilPhaseIdx ≠ fluidSystemQ.gasPhaseIdx ∧
    (commitBuffers tagAll fluidSystemQ
      { (allocBuffers tagAll 1 EclOutputBlackOilModule.construct) with
        saturation_ := Function.update
          (allocBuffers tagAll 1 EclOutputBlackOilModule.construct).saturation_
          fluidSystemQ.oilPhaseIdx [7] } eclWriter).2 =
    (commitBuffers tagAll fluidSystemQ
      (allocBuffers tagAll 1 EclOutputBlackOilModule.construct) eclWriter).2 := by
  obtain ⟨_, _, _, _, h⟩ := oil_saturation_never_committed tagAll fluidSystemQ
    (allocBuffers tagAll 1 EclOutputBlackOilModule.construct) eclWriter
  exact ⟨by decide, by decide, h (by decide) (by decide) [7]⟩

/-- C7: when the discretization is not the cell-centered one, `allocBuffers`,
`processElement` and `commitBuffers` leave the module as it is, `processElement` returns,
`commitBuffers` leaves the writer as it is, and after any sequence of these calls on a
freshly constructed module all ten buffers still have length 0. -/
theorem not_ecfv_noop [Zero S] [Div S] [OfScientific S] (t : TypeTag) (fsys : FluidSystem S)
    (hE : t.discretizationIsEcfv = false) :
    (∀ (n : Nat) (m : EclOutputBlackOilModule S), allocBuffers t n m = m) ∧
    (∀ (elemCtx : ElementContext S) (m : EclOutputBlackOilModule S),
      processElement t fsys elemCtx m = some m) ∧
    (∀ (m : EclOutputBlackOilModule S) (w : BaseOutputWriter S),
      commitBuffers t fsys m w = (m, w)) ∧
    (∀ ops : List (Operation S), ∃ m,
      runOperations t fsys ops EclOutputBlackOilModule.construct = some m ∧
      (∀ p, (m.saturation_ p).length = 0) ∧ (∀ p, (m.pressure_ p).length = 0) ∧
      m.gasDissolutionFactor_.length = 0 ∧ m.gasFormationVolumeFactor_.length = 0 ∧
      m.saturatedOilFormationVolumeFactor_.length = 0 ∧
      m.oilSaturationPressure_.length = 0) :=
  ⟨fun n m => allocBuffers_not_ecfv t n m hE,
    fun elemCtx m => processElement_not_ecfv t fsys elemCtx m hE,
    fun m w => commitBuffers_not_ecfv t fsys m w hE,
    fun ops => ⟨EclOutputBlackOilModule.construct, runOperations_not_ecfv t fsys hE ops _,
      fun _ => rfl, fun _ => rfl, rfl, rfl, rfl, rfl⟩⟩

/-- C7, witness: another discretization with all groups written: allocation with three
slots, an element and a commit to an ECL writer leave a fresh module and the writer as
they were. -/
theorem not_ecfv_noop_witness :
    allocBuffers tagOther 3 (EclOutputBlackOilModule.construct : EclOutputBlackOilModule ℚ) =
      EclOutputBlackOilModule.construct ∧
    processElement tagOther fluidSystemQ oneDofElement EclOutputBlackOilModule.construct =
      some EclOutputBlackOilModule.construct ∧
    commitBuffers tagOther fluidSystemQ EclOutputBlackOilModule.construct eclWriter =
      (EclOutputBlackOilModule.construct, eclWriter) ∧
    runOperations tagOther fluidSystemQ
      [.allocBuffers 3, .processElement oneDofElement, .commitBuffers eclWriter]
      EclOutputBlackOilModule.construct = some EclOutputBlackOilModule.construct := by
  have h := not_ecfv_noop tagOther fluidSystemQ rfl
  refine ⟨h.1 3 _, h.2.1 oneDofElement _, h.2.2.1 _ eclWriter, ?_⟩
  exact runOperations_not_ecfv tagOther fluidSystemQ rfl _ _

/-- C8: when the writer is not an ECL writer, `commitBuffers` returns the module and the
writer exactly as they were: nothing is emitted, no buffer changes, and the call has no
way to fail. -/
theorem commitBuffers_other_writer (t : TypeTag) (fsys : FluidSystem S)
    (m : EclOutputBlackOilModule S) (w : BaseOutputWriter S)
    (hW : w.isEclWriter = false) : commitBuffers t fsys m w = (m, w) :=
  commitBuffers_not_ecl t fsys m w hW

/-- C8, witness: all groups written, cell-centered discretization, a writer of another
kind. -/
theorem commitBuffers_other_writer_witness :
    commitBuffers tagAll fluidSystemQ
        (allocBuffers tagAll 1 EclOutputBlackOilModule.construct) otherWriter =
      (allocBuffers tagAll 1 EclOutputBlackOilModule.construct, otherWriter) :=
  commitBuffers_other_writer tagAll fluidSystemQ _ otherWriter rfl

/-- C9, counterexample: with only the pressures written, `allocBuffers` with one slot
followed at once by `commitBuffers` to an ECL writer commits three buffers of length 1,
each holding the initial zero; they are not empty. -/
theorem alloc_commit_counterexample :
    (commitBuffers tagPressures fluidSystemQ
        (allocBuffers tagPressures 1 EclOutputBlackOilModule.construct) eclWriter).2.attached.map
      (fun a => (a.name, a.buffer)) =
      [("PRESSURE", [0]), ("PGAS", [0]), ("PWAT", [0])] ∧
    ¬ ∀ a ∈ (commitBuffers tagPressures fluidSystemQ
        (allocBuffers tagPressures 1 EclOutputBlackOilModule.construct) eclWriter).2.attached,
      a.buffer.length = 0 := by
  have hE : tagPressures.discretizationIsEcfv = true := rfl
  have h : (commitBuffers tagPressures fluidSystemQ
      (allocBuffers tagPressures 1 EclOutputBlackOilModule.construct) eclWriter).2.attached =
      [⟨"PRESSURE", [0], some .ElementBuffer⟩, ⟨"PGAS", [0], some .ElementBuffer⟩,
       ⟨"PWAT", [0], some .ElementBuffer⟩] := by
    rw [commitBuffers_eq _ _ _ _ rfl rfl]
    simp [commitCalls, eclWriter, allocBuffers_pressure_ _ _ _ hE,
      show pressuresOutput_ tagPressures = true from rfl,
      show saturationsOutput_ tagPressures = false from rfl,
      show gasDissolutionFactorOutput_ tagPressures = false from rfl,
      show gasFormationVolumeFactorOutput_ tagPressures = false from rfl,
      show saturatedOilFormationVolumeFactorOutput_ tagPressures = false from rfl,
      show oilSaturationPressureOutput_ tagPressures = false from rfl]
  rw [h]
  refine ⟨rfl, ?_⟩
  intro hall
  have := hall ⟨"PRESSURE", [0], some .ElementBuffer⟩ (List.mem_cons_self _ _)
  simp at this

/-- C9, amended: under the cell-centered discretization and with an ECL writer,
`allocBuffers` with `n` slots followed at once by `commitBuffers` commits, for the enabled
groups and only for them, buffers of length `n` whose every slot holds the initial zero
(so they are empty exactly when `n = 0`): PRESSURE, PGAS, PWAT for the pressures, SWAT, SGAS
for the saturations, RS, BG, BOSAT and PSAT for the four PVT groups. -/
theorem alloc_commit_fresh_buffers [Zero S] (t : TypeTag) (fsys : FluidSystem S) (n : Nat)
    (m : EclOutputBlackOilModule S) (w : BaseOutputWriter S)
    (hE : t.discretizationIsEcfv = true) (hW : w.isEclWriter = true) :
    ∃ new, (commitBuffers t fsys (allocBuffers t n m) w).2.attached = w.attached ++ new ∧
      (∀ a ∈ new, a.buffer = List.replicate n 0 ∧ a.buffer.length = n) ∧
      new.map (fun a => a.name) =
        (if pressuresOutput_ t = true then ["PRESSURE", "PGAS", "PWAT"] else []) ++
        ((if saturationsOutput_ t = true then ["SWAT", "SGAS"] else []) ++
        ((if gasDissolutionFactorOutput_ t = true then ["RS"] else []) ++
        ((if gasFormationVolumeFactorOutput_ t = true then ["BG"] else []) ++
        ((if saturatedOilFormationVolumeFactorOutput_ t = true then ["BOSAT"] else []) ++
        (if oilSaturationPressureOutput_ t = true then ["PSAT"] else []))))) := by
  refine ⟨commitCalls t fsys (allocBuffers t n m), ?_, ?_, ?_⟩
  · rw [commitBuffers_eq t fsys _ w hE hW]
  · intro a ha
    have hbuf : a.buffer = List.replicate n 0 := by
      unfold commitCalls at ha
      simp only [List.mem_append] at ha
      rcases ha with ha | ha | ha | ha | ha | ha <;> split_ifs at ha with hf <;>
        simp only [List.mem_cons, List.mem_singleton, List.not_mem_nil, or_false] at ha <;>
        rcases ha with rfl | rfl | rfl <;>
        simp [allocBuffers_pressure_ t n m hE, allocBuffers_saturation_ t n m hE,
          allocBuffers_gasDissolutionFactor_ t n m hE,
          allocBuffers_gasFormationVolumeFactor_ t n m hE,
          allocBuffers_saturatedOilFormationVolumeFactor_ t n m hE,
          allocBuffers_oilSaturationPressure_ t n m hE, hf]
    exact ⟨hbuf, by rw [hbuf, List.length_replicate]⟩
  · unfold commitCalls
    cases saturationsOutput_ t <;> cases pressuresOutput_ t <;>
      cases gasDissolutionFactorOutput_ t <;> cases gasFormationVolumeFactorOutput_ t <;>
      cases saturatedOilFormationVolumeFactorOutput_ t <;>
      cases oilSaturationPressureOutput_ t <;> rfl

/-- C9, witness: all groups written, two slots, a fresh module, an ECL writer. -/
theorem alloc_commit_fresh_buffers_witness :
    ∃ new, (commitBuffers tagAll fluidSystemQ
        (allocBuffers tagAll 2 EclOutputBlackOilModule.construct) eclWriter).2.attached =
          eclWriter.attached ++ new ∧
      (∀ a ∈ new, a.buffer = List.replicate 2 0 ∧ a.buffer.length = 2) ∧
      new.map (fun a => a.name) =
        (if pressuresOutput_ tagAll = true then ["PRESSURE", "PGAS", "PWAT"] else []) ++
        ((if saturationsOutput_ tagAll = true then ["SWAT", "SGAS"] else []) ++
        ((if gasDissolutionFactorOutput_ tagAll = true then ["RS"] else []) ++
        ((if gasFormationVolumeFactorOutput_ tagAll = true then ["BG"] else []) ++
        ((if saturatedOilFormationVolumeFactorOutput_ tagAll = true then ["BOSAT"] else []) ++
        (if oilSaturationPressureOutput_ tagAll = true then ["PSAT"] else []))))) :=
  alloc_commit_fresh_buffers tagAll fluidSystemQ 2 EclOutputBlackOilModule.construct
    eclWriter rfl rfl

/-- C10: for every configuration, module state and element, `processElement` invoked a
second time on the result of a first invocation returns that result unchanged (and the
second invocation returns whenever the first did). -/
theorem processElement_idempotent [Div S] [OfScientific S] (t : TypeTag)
    (fsys : FluidSystem S) (elemCtx : ElementContext S) (m : EclOutputBlackOilModule S) :
    (processElement t fsys elemCtx m).bind (processElement t fsys elemCtx) =
      processElement t fsys elemCtx m := by
  cases hE : t.discretizationIsEcfv with
  | false =>
    rw [processElement_not_ecfv t fsys elemCtx m hE, Option.some_bind,
      processElement_not_ecfv t fsys elemCtx m hE]
  | true =>
    by_cases hfit : ∀ d, d < elemCtx.numPrimaryDof 0 →
        DofFits t m (elemCtx.globalSpaceIndex d 0)
    · rw [processElement_some t fsys elemCtx m hE hfit, Option.some_bind]
      rw [processElement_some t fsys elemCtx _ hE
        (fun d hd => (dofFits_congr t m _ _ (length_buf_after t fsys elemCtx _ m)).mpr
          (hfit d hd))]
      congr 1
      apply buf_ext
      intro j
      simp only [buf_ofBuf]
      by_cases hj : enabled t j = true
      · simp only [hj, if_true, replayDofs, replay_replay]
      · simp [hj]
    · rw [processElement_none t fsys elemCtx m hE hfit]
      rfl

/-- C12: with all six flags disabled, whatever the discretization, the module state, the
element and the writer: `processElement` returns the module exactly as it was, and
`commitBuffers` returns the module and the writer exactly as they were, so that it emits
no buffer. -/
theorem all_flags_disabled_noop [Div S] [OfScientific S] (t : TypeTag) (fsys : FluidSystem S)
    (h1 : saturationsOutput_ t = false) (h2 : pressuresOutput_ t = false)
    (h3 : gasDissolutionFactorOutput_ t = false)
    (h4 : gasFormationVolumeFactorOutput_ t = false)
    (h5 : saturatedOilFormationVolumeFactorOutput_ t = false)
    (h6 : oilSaturationPressureOutput_ t = false) :
    (∀ (elemCtx : ElementContext S) (m : EclOutputBlackOilModule S),
      processElement t fsys elemCtx m = some m) ∧
    (∀ (m : EclOutputBlackOilModule S) (w : BaseOutputWriter S),
      commitBuffers t fsys m w = (m, w)) := by
  have hoff := enabled_false_of_flags t h1 h2 h3 h4 h5 h6
  constructor
  · intro elemCtx m
    cases hE : t.discretizationIsEcfv with
    | false => exact processElement_not_ecfv t fsys elemCtx m hE
    | true =>
      rw [processElement_some t fsys elemCtx m hE
        (fun d _ i hi => absurd hi (by simp [hoff i]))]
      congr 1
      apply buf_ext
      intro j
      rw [buf_ofBuf]
      simp [hoff j]
  · intro m w
    cases hE : t.discretizationIsEcfv with
    | false => exact commitBuffers_not_ecfv t fsys m w hE
    | true =>
      cases hW : w.isEclWriter with
      | false => exact commitBuffers_not_ecl t fsys m w hW
      | true =>
        rw [commitBuffers_eq t fsys m w hE hW]
        simp [commitCalls, h1, h2, h3, h4, h5, h6]

/-- C12, witness: no group written, cell-centered discretization, two slots allocated, an
element and an ECL writer. -/
theorem all_flags_disabled_noop_witness :
    processElement tagNone fluidSystemQ oneDofElement
        (allocBuffers tagNone 2 EclOutputBlackOilModule.construct) =
      some (allocBuffers tagNone 2 EclOutputBlackOilModule.construct) ∧
    commitBuffers tagNone fluidSystemQ
        (allocBuffers tagNone 2 EclOutputBlackOilModule.construct) eclWriter =
      (allocBuffers tagNone 2 EclOutputBlackOilModule.construct, eclWriter) :=
  ⟨(all_flags_disabled_noop tagNone fluidSystemQ rfl rfl rfl rfl rfl rfl).1 oneDofElement _,
    (all_flags_disabled_noop tagNone fluidSystemQ rfl rfl rfl rfl rfl rfl).2 _ eclWriter⟩

/-- C14: under the cell-centered discretization, in any state reached from `allocBuffers`
with `n` slots by calls other than `allocBuffers`, for an element all of whose primary
degrees of freedom have a global index `g` with `0 ≤ g < n`, and for every configuration
of the six flags: every store of `processElement` is inside its buffer, and the call
returns a module (the failure branch is not taken). -/
theorem processElement_in_bounds [Zero S] [Div S] [OfScientific S] (t : TypeTag)
    (fsys : FluidSystem S) (n : Nat) (m0 m : EclOutputBlackOilModule S)
    (ops : List (Operation S)) (elemCtx : ElementContext S)
    (hE : t.discretizationIsEcfv = true)
    (hops : ∀ op ∈ ops, op.isAlloc = false)
    (hm : runOperations t fsys ops (allocBuffers t n m0) = some m)
    (hR : ∀ d, d < elemCtx.numPrimaryDof 0 →
      0 ≤ elemCtx.globalSpaceIndex d 0 ∧ elemCtx.globalSpaceIndex d 0 < n) :
    (∀ d, d < elemCtx.numPrimaryDof 0 → ∀ i, enabled t i = true →
      InRange (m.buf i) (elemCtx.globalSpaceIndex d 0)) ∧
    ∃ m', processElement t fsys elemCtx m = some m' := by
  have hfit : ∀ d, d < elemCtx.numPrimaryDof 0 →
      DofFits t m (elemCtx.globalSpaceIndex d 0) := by
    intro d hd
    apply (dofFits_congr t (allocBuffers t n m0) m _
      (runOperations_length t fsys ops hops _ m hm)).mpr
    exact dofFits_allocBuffers t n m0 hE _ (hR d hd).1 (hR d hd).2
  exact ⟨hfit, _, processElement_some t fsys elemCtx m hE hfit⟩

/-- C14, witness: all groups written, two slots allocated and no call since; the element
with degrees of freedom at global indices 0 and 1. -/
theorem processElement_in_bounds_witness :
    (∀ d, d < pairElement.numPrimaryDof 0 → ∀ i, enabled tagAll i = true →
      InRange ((allocBuffers tagAll 2 (EclOutputBlackOilModule.construct :
        EclOutputBlackOilModule ℚ)).buf i) (pairElement.globalSpaceIndex d 0)) ∧
    ∃ m', processElement tagAll fluidSystemQ pairElement
      (allocBuffers tagAll 2 EclOutputBlackOilModule.construct) = some m' :=
  processElement_in_bounds tagAll fluidSystemQ 2 EclOutputBlackOilModule.construct
    (allocBuffers tagAll 2 EclOutputBlackOilModule.construct) [] pairElement rfl
    (fun op hop => absurd hop (List.not_mem_nil op)) rfl
    (fun d hd => by
      have h2 : d < 2 := hd
      have hg : pairElement.globalSpaceIndex d 0 = (d : Int) := rfl
      rw [hg]
      omega)

/-- C15: when `processElement` returns, every buffer of a disabled group is exactly as it
was, every slot whose index is not the global index of a primary degree of freedom of the
element is unchanged in every buffer, and no buffer has changed its length. -/
theorem processElement_frame [Div S] [OfScientific S] (t : TypeTag) (fsys : FluidSystem S)
    (elemCtx : ElementContext S) (m m' : EclOutputBlackOilModule S)
    (h : processElement t fsys elemCtx m = some m') :
    (∀ i, enabled t i = false → m'.buf i = m.buf i) ∧
    (∀ i (k : Nat),
      (∀ d, d < elemCtx.numPrimaryDof 0 → elemCtx.globalSpaceIndex d 0 ≠ (k : Int)) →
      (m'.buf i)[k]? = (m.buf i)[k]?) ∧
    (∀ i, (m'.buf i).length = (m.buf i).length) := by
  refine ⟨fun i hi => processElement_disabled t fsys elemCtx m m' h i hi, ?_,
    fun i => processElement_length t fsys elemCtx m m' h i⟩
  intro i k hk
  cases hi : enabled t i with
  | false => rw [processElement_disabled t fsys elemCtx m m' h i hi]
  | true =>
    cases hE : t.discretizationIsEcfv with
    | false =>
      rw [processElement_not_ecfv t fsys elemCtx m hE] at h
      rw [← Option.some.inj h]
    | true =>
      rw [processElement_getElem? t fsys elemCtx m m' hE h i hi k]
      have hfit := (processElement_some_inv t fsys elemCtx m m' hE h).1
      rw [lastStore_eq_none]
      intro d hd
      have hd' := List.mem_range.mp hd
      have h0 := (hfit d hd' i hi).1
      have hne := hk d hd'
      show (elemCtx.globalSpaceIndex d 0).toNat ≠ k
      omega

/-- C15, witness: all groups written, two slots allocated, the element with one degree of
freedom at global index 0; slot 1 is among the untouched ones. -/
theorem processElement_frame_witness :
    ∃ m' : EclOutputBlackOilModule ℚ, processElement tagAll fluidSystemQ oneDofElement
        (allocBuffers tagAll 2
          (EclOutputBlackOilModule.construct : EclOutputBlackOilModule ℚ)) = some m' ∧
      (∀ i, enabled tagAll i = false →
        m'.buf i = (allocBuffers tagAll 2
          (EclOutputBlackOilModule.construct : EclOutputBlackOilModule ℚ)).buf i) ∧
      (∀ i (k : Nat),
        (∀ d, d < oneDofElement.numPrimaryDof 0 →
          oneDofElement.globalSpaceIndex d 0 ≠ (k : Int)) →
        (m'.buf i)[k]? =
          ((allocBuffers tagAll 2
          (EclOutputBlackOilModule.construct : EclOutputBlackOilModule ℚ)).buf i)[k]?) ∧
      (∀ i, (m'.buf i).length =
        ((allocBuffers tagAll 2
          (EclOutputBlackOilModule.construct : EclOutputBlackOilModule ℚ)).buf i).length) :=
  ⟨_, processElement_some tagAll fluidSystemQ oneDofElement _ rfl
      (fun _ _ => dofFits_allocBuffers tagAll 2 _ rfl 0 (le_refl _)
        (show (0 : Int) < ((2 : Nat) : Int) by decide)),
    processElement_frame tagAll fluidSystemQ oneDofElement _ _
      (processElement_some tagAll fluidSystemQ oneDofElement _ rfl
        (fun _ _ => dofFits_allocBuffers tagAll 2 _ rfl 0 (le_refl _)
          (show (0 : Int) < ((2 : Nat) : Int) by decide)))⟩

/-- C13, counterexample: at a position with `y = 30`, above 22, the injection problem
returns the tensor built from `1e-13`, not the one built from `1e-12`, and at a position
with `y = 10`, below 22, the tensor built from `1e-12`, not the one built from `1e-13`;
the two tensors differ. -/
theorem intrinsicPermeability_layers :
    (InjectionProblem.construct diagTensor).intrinsicPermeability (contextAt 0 30) 0 0 =
      diagTensor 1e-13 ∧
    (InjectionProblem.construct diagTensor).intrinsicPermeability (contextAt 0 10) 0 0 =
      diagTensor 1e-12 ∧
    diagTensor 1e-13 ≠ diagTensor 1e-12 := by
  refine ⟨?_, ?_, ?_⟩
  · have h : (InjectionProblem.construct diagTensor).isFineMaterial_
        ((contextAt 0 30).pos 0 0) = true := by
      simp only [InjectionProblem.isFineMaterial_, InjectionProblem.construct, contextAt,
        decide_eq_true_eq]
      norm_num
    simp only [InjectionProblem.intrinsicPermeability, h, if_true]
    rfl
  · have h : (InjectionProblem.construct diagTensor).isFineMaterial_
        ((contextAt 0 10).pos 0 0) = false := by
      simp only [InjectionProblem.isFineMaterial_, InjectionProblem.construct, contextAt,
        decide_eq_false_iff_not]
      norm_num
    simp only [InjectionProblem.intrinsicPermeability, h]
    rfl
  · intro h
    have h00 := congrFun (congrFun h 0) 0
    simp only [diagTensor, if_true] at h00
    norm_num at h00

/-- C13, amended: for every position, `intrinsicPermeability` of a constructed injection
problem returns the lower-permeability tensor, built from `1e-13`, where the vertical
coordinate `y` is above 22, and the moderately permeable tensor, built from `1e-12`, in
the rest of the domain, `y ≤ 22`. -/
theorem intrinsicPermeability_by_layer {T : Type} [LinearOrder S] [OfScientific S]
    (toTensor_ : S → T) (context : PositionContext S) (spaceIdx timeIdx : Nat) :
    (context.pos spaceIdx timeIdx ⟨dim - 1, by decide⟩ > 22.0 →
      (InjectionProblem.construct toTensor_).intrinsicPermeability context spaceIdx timeIdx =
        toTensor_ 1e-13) ∧
    (context.pos spaceIdx timeIdx ⟨dim - 1, by decide⟩ ≤ 22.0 →
      (InjectionProblem.construct toTensor_).intrinsicPermeability context spaceIdx timeIdx =
        toTensor_ 1e-12) := by
  constructor
  · intro hy
    have h : (InjectionProblem.construct toTensor_).isFineMaterial_
        (context.pos spaceIdx timeIdx) = true := by
      simp only [InjectionProblem.isFineMaterial_, InjectionProblem.construct,
        decide_eq_true_eq]
      exact hy
    simp only [InjectionProblem.intrinsicPermeability, h, if_true]
    rfl
  · intro hy
    have h : (InjectionProblem.construct toTensor_).isFineMaterial_
        (context.pos spaceIdx timeIdx) = false := by
      simp only [InjectionProblem.isFineMaterial_, InjectionProblem.construct,
        decide_eq_false_iff_not]
      exact not_lt.mpr hy
    simp only [InjectionProblem.intrinsicPermeability, h]
    rfl

/-- C13, witness: diagonal tensors over the rationals, at the positions `(0, 30)` and
`(0, 10)`. -/
theorem intrinsicPermeability_by_layer_witness :
    (contextAt 0 30).pos 0 0 ⟨dim - 1, by decide⟩ > 22.0 ∧
    (InjectionProblem.construct diagTensor).intrinsicPermeability (contextAt 0 30) 0 0 =
      diagTensor 1e-13 ∧
    (contextAt 0 10).pos 0 0 ⟨dim - 1, by decide⟩ ≤ 22.0 ∧
    (InjectionProblem.construct diagTensor).intrinsicPermeability (contextAt 0 10) 0 0 =
      diagTensor 1e-12 := by
  have h30 : (contextAt 0 30).pos 0 0 ⟨dim - 1, by decide⟩ > 22.0 := by
    simp only [contextAt]
    norm_num
  have h10 : (contextAt 0 10).pos 0 0 ⟨dim - 1, by decide⟩ ≤ 22.0 := by
    simp only [contextAt]
    norm_num
  exact ⟨h30, (intrinsicPermeability_by_layer diagTensor (contextAt 0 30) 0 0).1 h30,
    h10, (intrinsicPermeability_by_layer diagTensor (contextAt 0 10) 0 0).2 h10⟩

/-- C16, the code at the failing input: with all groups written, the cell-centered
discretization and an ECL writer, the eight buffers from PRESSURE to BOSAT are committed
with the tag `ElementBuffer`, and PSAT is committed with no tag argument at all. -/
theorem psat_committed_without_tag :
    (commitBuffers tagAll fluidSystemQ
        (allocBuffers tagAll 1 EclOutputBlackOilModule.construct) eclWriter).2.attached.map
      (fun a => (a.name, a.bufferType)) =
      [("PRESSURE", some .ElementBuffer), ("PGAS", some .ElementBuffer),
       ("PWAT", some .ElementBuffer), ("SWAT", some .ElementBuffer),
       ("SGAS", some .ElementBuffer), ("RS", some .ElementBuffer),
       ("BG", some .ElementBuffer), ("BOSAT", some .ElementBuffer), ("PSAT", none)] := by
  rw [commitBuffers_eq _ _ _ _ rfl rfl]
  simp [commitCalls, eclWriter,
    show pressuresOutput_ tagAll = true from rfl,
    show saturationsOutput_ tagAll = true from rfl,
    show gasDissolutionFactorOutput_ tagAll = true from rfl,
    show gasFormationVolumeFactorOutput_ tagAll = true from rfl,
    show saturatedOilFormationVolumeFactorOutput_ tagAll = true from rfl,
    show oilSaturationPressureOutput_ tagAll = true from rfl]

/-- C17: for every configuration, module state and two elements such that primary degrees
of freedom of the one and of the other that share a global index have equal fluid states
and equal PVT regions, `processElement` on the first and then on the second gives the same
result as `processElement` on the second and then on the first: the same module when both
orders return, and a failure in both orders otherwise. (Agreement between two degrees of
freedom of the same element is not needed.) -/
theorem processElement_commute [Div S] [OfScientific S] (t : TypeTag)
    (fsys : FluidSystem S) (e1 e2 : ElementContext S) (m : EclOutputBlackOilModule S)
    (hagree : AgreeOnSharedDofs e1 e2) :
    (processElement t fsys e1 m).bind (processElement t fsys e2) =
      (processElement t fsys e2 m).bind (processElement t fsys e1) := by
  cases hE : t.discretizationIsEcfv with
  | false =>
    simp only [processElement_not_ecfv t fsys _ _ hE, Option.some_bind]
  | true =>
    by_cases hf1 : ∀ d, d < e1.numPrimaryDof 0 → DofFits t m (e1.globalSpaceIndex d 0)
    · by_cases hf2 : ∀ d, d < e2.numPrimaryDof 0 → DofFits t m (e2.globalSpaceIndex d 0)
      · have h1 := processElement_some t fsys e1 m hE hf1
        have h2 := processElement_some t fsys e2 m hE hf2
        have h12 := processElement_some t fsys e2 _ hE
          ((processElement_fits_after t fsys e1 e2 m _ h1).mpr hf2)
        have h21 := processElement_some t fsys e1 _ hE
          ((processElement_fits_after t fsys e2 e1 m _ h2).mpr hf1)
        rw [h1, h2, Option.some_bind, Option.some_bind, h12, h21]
        exact congrArg some
          (processElement_commute_some t fsys e1 e2 m _ _ _ _ hagree h1 h12 h2 h21)
      · have h1 := processElement_some t fsys e1 m hE hf1
        have h12 := processElement_none t fsys e2 _ hE
          (fun h => hf2 ((processElement_fits_after t fsys e1 e2 m _ h1).mp h))
        rw [processElement_none t fsys e2 m hE hf2, h1, Option.some_bind, h12]
        rfl
    · rw [processElement_none t fsys e1 m hE hf1]
      cases h2 : processElement t fsys e2 m with
      | none => rfl
      | some m2 =>
        rw [Option.some_bind, processElement_none t fsys e1 m2 hE
          (fun h => hf1 ((processElement_fits_after t fsys e2 e1 m m2 h2).mp h))]
        rfl

/-- C17, witness: the element with one degree of freedom at global index 0 and the element
with degrees of freedom at global indices 0 and 1 that carries the same state at index 0;
all groups written, two slots allocated. -/
theorem processElement_commute_witness :
    AgreeOnSharedDofs oneDofElement pairElement ∧
    (processElement tagAll fluidSystemQ oneDofElement
        (allocBuffers tagAll 2 EclOutputBlackOilModule.construct)).bind
      (processElement tagAll fluidSystemQ pairElement) =
    (processElement tagAll fluidSystemQ pairElement
        (allocBuffers tagAll 2 EclOutputBlackOilModule.construct)).bind
      (processElement tagAll fluidSystemQ oneDofElement) := by
  have hagree : AgreeOnSharedDofs oneDofElement pairElement := by
    intro d1 _ d2 _ hg
    have hg' : (0 : Int) = (d2 : Int) := hg
    have hd2 : d2 = 0 := by omega
    subst hd2
    exact ⟨rfl, rfl⟩
  exact ⟨hagree, processElement_commute tagAll fluidSystemQ oneDofElement pairElement _ hagree⟩

/-- C11, counterexample: with only the pressures flag enabled but another discretization,
`allocBuffers` with one slot, `processElement` on the element of the scenario and
`commitBuffers` to an ECL writer emit no buffer at all. -/
theorem pressures_only_counterexample :
    pressuresOutput_ tagPressuresOther = true ∧
    (runOperations tagPressuresOther fluidSystemQ
        [.allocBuffers 1, .processElement scenarioElement]
        EclOutputBlackOilModule.construct).map
      (fun m => (commitBuffers tagPressuresOther fluidSystemQ m eclWriter).2.attached.map
        fun a => a.name) = some [] := by
  refine ⟨rfl, ?_⟩
  rw [runOperations_not_ecfv tagPressuresOther fluidSystemQ rfl, Option.map_some',
    commitBuffers_not_ecfv tagPressuresOther fluidSystemQ _ _ rfl]
  rfl

/-- C11, amended: under the cell-centered discretization, with only the pressures flag
enabled, `n` slots, and elements whose primary degrees of freedom have global indices in
`[0, n)`, cover all of them, and carry at global index `g` the pressures `field g`:
`allocBuffers`, then `processElement` for each element, return, and `commitBuffers` to an
ECL writer then emits exactly three buffers, PRESSURE, PGAS and PWAT, each of length `n`,
holding at slot `g` the oil, gas and water pressure of `field g` divided by `1e5`. -/
theorem pressures_only_end_to_end [Zero S] [Div S] [OfScientific S] (t : TypeTag)
    (fsys : FluidSystem S) (n : Nat) (elems : List (ElementContext S))
    (field : Nat → Fin numPhases → S) (m0 : EclOutputBlackOilModule S)
    (w : BaseOutputWriter S)
    (hE : t.discretizationIsEcfv = true) (hW : w.isEclWriter = true)
    (hP : pressuresOutput_ t = true) (h1 : saturationsOutput_ t = false)
    (h3 : gasDissolutionFactorOutput_ t = false)
    (h4 : gasFormationVolumeFactorOutput_ t = false)
    (h5 : saturatedOilFormationVolumeFactorOutput_ t = false)
    (h6 : oilSaturationPressureOutput_ t = false)
    (hR : ∀ e ∈ elems, ∀ d, d < e.numPrimaryDof 0 →
      0 ≤ e.globalSpaceIndex d 0 ∧ e.globalSpaceIndex d 0 < n)
    (hF : ∀ e ∈ elems, ∀ d, d < e.numPrimaryDof 0 → ∀ p,
      (e.fluidState d 0).pressure p = field (e.globalSpaceIndex d 0).toNat p)
    (hC : ∀ k, k < n →
      ∃ e ∈ elems, ∃ d, d < e.numPrimaryDof 0 ∧ e.globalSpaceIndex d 0 = (k : Int)) :
    ∃ m', runOperations t fsys
        (Operation.allocBuffers n :: elems.map Operation.processElement) m0 = some m' ∧
      (commitBuffers t fsys m' w).2.attached =
        w.attached ++
          [⟨"PRESSURE", (List.range n).map (fun g => field g fsys.oilPhaseIdx / 1e5),
              some .ElementBuffer⟩,
           ⟨"PGAS", (List.range n).map (fun g => field g fsys.gasPhaseIdx / 1e5),
              some .ElementBuffer⟩,
           ⟨"PWAT", (List.range n).map (fun g => field g fsys.waterPhaseIdx / 1e5),
              some .ElementBuffer⟩] := by
  have hlen : ∀ i, enabled t i = true → ((allocBuffers t n m0).buf i).length = n := by
    intro i hi
    rw [allocBuffers_buf t n m0 hE i, if_pos hi, List.length_replicate]
  obtain ⟨m', hm', hl', hs'⟩ :=
    runOperations_processElements t fsys hE n elems (allocBuffers t n m0) hlen hR
  have hpress : ∀ p : Fin numPhases,
      m'.pressure_ p = (List.range n).map (fun g => field g p / 1e5) := by
    intro p
    have hen : enabled t (.pressure p) = true := hP
    apply eq_map_range_of_getElem? (m'.pressure_ p) n
    · exact (hl' (.pressure p)).trans (hlen _ hen)
    · intro k hk
      apply hs' (.pressure p) hen (fun g => field g p / 1e5) _ k hk (Or.inr (hC k hk))
      intro e he d hd
      show (e.fluidState d 0).pressure p / 1e5 = _
      rw [hF e he d hd p]
  refine ⟨m', ?_, ?_⟩
  · rw [runOperations]
    simp only [runOperation, Option.some_bind]
    exact hm'
  · rw [commitBuffers_eq t fsys m' w hE hW]
    simp [commitCalls, hP, h1, h3, h4, h5, h6, hpress]

/-- C11, witness: the scenario of the specification: only the pressures written, one
element with one degree of freedom, pressures 2.5e7 (oil), 2.5e7 (gas) and 2.6e7 (water);
the committed buffers are exactly PRESSURE = [250], PGAS = [250], PWAT = [260]. -/
theorem pressures_only_end_to_end_witness :
    ∃ m', runOperations tagPressures fluidSystemQ
        [.allocBuffers 1, .processElement scenarioElement]
        EclOutputBlackOilModule.construct = some m' ∧
      (commitBuffers tagPressures fluidSystemQ m' eclWriter).2.attached =
        [⟨"PRESSURE", [250], some .ElementBuffer⟩, ⟨"PGAS", [250], some .ElementBuffer⟩,
         ⟨"PWAT", [260], some .ElementBuffer⟩] := by
  obtain ⟨m', h1, h2⟩ := pressures_only_end_to_end tagPressures fluidSystemQ 1
    [scenarioElement] (fun _ phaseIdx => if phaseIdx = 0 then 26000000 else 25000000)
    EclOutputBlackOilModule.construct eclWriter rfl rfl rfl rfl rfl rfl rfl rfl
    (by
      intro e he d _
      rw [List.mem_singleton.mp he]
      exact ⟨le_refl (0 : Int), show (0 : Int) < ((1 : Nat) : Int) by decide⟩)
    (by
      intro e he d _ p
      rw [List.mem_singleton.mp he]
      rfl)
    (by
      intro k hk
      have hk0 : k = 0 := by omega
      subst hk0
      exact ⟨scenarioElement, List.mem_singleton.mpr rfl, 0, by decide, rfl⟩)
  refine ⟨m', h1, ?_⟩
  rw [h2]
  simp [eclWriter, fluidSystemQ]
  norm_num

end Claims

end Ewoms
